import Mathlib

/-!
Verification of the android-activity-monitor-system collection pipeline
(`src/android-monitor.py`) against its natural-language specification.

The Python source is shallowly embedded: each monitor's pure logic
(parsing, threshold evaluation, filesystem diffing, schema creation,
batch insertion) becomes an executable Lean function, and each stateful
polling loop becomes a recursive function over an explicit list of
inputs (lines or ticks), with the SQLite store abstracted as a
`fail : Nat -> Bool` oracle telling which insert attempt raises
(`insert_batch` either commits a batch or raises; the index counts
attempts in program order).  Python floats are modelled as exact
rationals and Python ints as `Int`/`Nat`.
-/

set_option maxRecDepth 8000

namespace AndroidMonitor

/-- ASCII whitespace accepted by Python's `\s` and `str.strip`
(the source only ever feeds ASCII log lines). -/
def wsChar (c : Char) : Bool :=
  c = ' ' || c = '\t' || c = '\n' || c = '\r' || c = '\x0b' || c = '\x0c'

/-- Value of an ASCII digit character. -/
def charToDigit (c : Char) : Nat := c.toNat - 48

/-- Python `int()` on a nonempty string of ASCII digits. -/
def digitsToNat (cs : List Char) : Nat :=
  cs.foldl (fun a c => 10 * a + charToDigit c) 0

/-- Python `str.strip()` on the model's ASCII lines. -/
def pyStrip (s : String) : String :=
  ⟨((s.data.dropWhile wsChar).reverse.dropWhile wsChar).reverse⟩

/-- Round a rational to the nearest integer, ties to even
(the rounding used by Python's fixed-point string formatting). -/
def roundHalfEven (q : ℚ) : ℤ :=
  let f := ⌊q⌋
  let r := q - (f : ℚ)
  if r < 1/2 then f
  else if 1/2 < r then f + 1
  else if f % 2 = 0 then f else f + 1

/-- Decimal digits of a natural number, most significant first
(fuel-based recursion; `fuel = n` always suffices). -/
def natDigitsAux : Nat → Nat → List Char
  | 0, _ => []
  | fuel + 1, n =>
    if n = 0 then [] else natDigitsAux fuel (n / 10) ++ [Nat.digitChar (n % 10)]

/-- Decimal digits of a natural number, most significant first. -/
def natDigits (n : Nat) : List Char := natDigitsAux n n

/-- Render a natural number in decimal (Python `str` on a nonnegative int). -/
def natRender (n : Nat) : String :=
  if n = 0 then "0" else ⟨natDigits n⟩

/-- Render `n` in decimal padded with leading zeros to `w` digits. -/
def natRenderPad (w n : Nat) : String :=
  ⟨List.replicate (w - (natDigits n).length) '0' ++ natDigits n⟩

/-- Python `f"{q:.prec f}"` fixed-point formatting of the exact rational
model of a float (sign, integer part, `prec` fractional digits). -/
def fmtFixed (prec : Nat) (q : ℚ) : String :=
  let n := roundHalfEven (q * ((10 : ℚ) ^ prec))
  let sgn := if n < 0 then "-" else ""
  let m := n.natAbs
  if prec = 0 then sgn ++ natRender m
  else sgn ++ natRender (m / 10 ^ prec) ++ "." ++ natRenderPad prec (m % 10 ^ prec)

/-!  ## Alerts (`_create_alert` in every monitor)

An alert row as built by the monitors' `_create_alert` helpers:
module, fixed `'WARNING'` severity, human message and the payload
passed as `data` (the source serializes the payload with `json.dumps`,
which is injective on these payloads, so the model carries the payload
itself). `timestamp` is `time.time()` at alert creation, threaded in as
a parameter. -/

/-- One network interface sample as collected by
`NetworkMonitor._collect_network_stats` (one dict of the `stats` list). -/
structure NetStat where
  timestamp : ℚ
  interface : String
  bytes_sent : ℤ
  bytes_recv : ℤ
  packets_sent : ℤ
  packets_recv : ℤ
  errors_in : ℤ
  errors_out : ℤ
deriving DecidableEq

/-- One system memory sample as collected by
`MemoryMonitor._collect_memory_stats`; `extra` models the dynamic
`meminfo_*` keys added when `memory_detailed` is set. -/
structure MemStats where
  timestamp : ℚ
  total : ℤ
  available : ℤ
  percent : ℚ
  used : ℤ
  free : ℤ
  swap_total : ℤ
  swap_used : ℤ
  swap_free : ℤ
  extra : List (String × ℤ)
deriving DecidableEq

/-- Payload of an alert row (`data` field before `json.dumps`). -/
inductive AlertData where
  | net (iface : String) (rate_mbps : ℚ)
  | mem (stats : MemStats)
deriving DecidableEq

/-- An alert row as inserted into the `alerts` table. -/
structure Alert where
  timestamp : ℚ
  module : String
  severity : String
  message : String
  data : AlertData
deriving DecidableEq

/-- The alert built by `NetworkMonitor._create_alert` for
`HIGH_NETWORK_USAGE` (message from line 493 of the source). -/
def mkNetAlert (now : ℚ) (iface : String) (mb_rate : ℚ) : Alert :=
  ⟨now, "network", "WARNING",
    "Network usage on " ++ iface ++ ": " ++ fmtFixed 2 mb_rate ++ " MB/s",
    AlertData.net iface mb_rate⟩

/-- The alert built by `MemoryMonitor._create_alert` for
`HIGH_MEMORY_USAGE` (message from line 710 of the source). -/
def mkMemAlert (now : ℚ) (stats : MemStats) : Alert :=
  ⟨now, "memory", "WARNING",
    "System memory usage: " ++ fmtFixed 1 stats.percent ++ "%",
    AlertData.mem stats⟩

/-!  ## Network threshold evaluation (`NetworkMonitor._check_thresholds`) -/

/-- The rate computation of lines 480-488: `time_diff` from the two
samples' own timestamps; when `time_diff > 0` the byte rate is
`((Δbytes_sent) + (Δbytes_recv)) / time_diff` (Python int subtraction is
signed — nothing guards against a counter decrease); when
`time_diff <= 0` the body is skipped and no rate exists. -/
def netRate (prev cur : NetStat) : Option ℚ :=
  let time_diff := cur.timestamp - prev.timestamp
  if 0 < time_diff then
    some ((((cur.bytes_sent - prev.bytes_sent) + (cur.bytes_recv - prev.bytes_recv) : ℤ) : ℚ) / time_diff)
  else none

/-- `last_stats[iface] = stat`: Python dict assignment on the
association-list model of `self.last_stats`. -/
def upsert (l : List (String × NetStat)) (k : String) (v : NetStat) :
    List (String × NetStat) :=
  match l with
  | [] => [(k, v)]
  | (k', v') :: rest => if k' = k then (k, v) :: rest else (k', v') :: upsert rest k v

/-- `NetworkMonitor._check_thresholds(stats)` (lines 473-497), fused with
the store calls its `_create_alert` makes.  For each `stat` in order: if
the interface has a previous sample and `netRate` is defined and the
MB/s rate (`bytes_rate / (1024*1024)`) strictly exceeds the configured
threshold, an alert row is inserted (attempt number `k`; a failing
insert raises, which aborts the remaining iterations — in particular the
raising stat's own `last_stats` update on line 497 never runs); then
`last_stats[iface]` is set to `stat`.  Returns (next attempt index,
updated `last_stats`, alerts successfully inserted, `false` iff an
insert raised). -/
def netCheckThresholds (fail : Nat → Bool) (threshold : ℚ) (now : ℚ) :
    Nat → List (String × NetStat) → List NetStat →
    Nat × List (String × NetStat) × List Alert × Bool
  | k, last, [] => (k, last, [], true)
  | k, last, stat :: rest =>
    match last.lookup stat.interface with
    | some prev =>
      match netRate prev stat with
      | some bytes_rate =>
        if threshold < bytes_rate / (1024 * 1024) then
          if fail k then (k + 1, last, [], false)
          else
            let out := netCheckThresholds fail threshold now (k + 1)
              (upsert last stat.interface stat) rest
            (out.1, out.2.1, mkNetAlert now stat.interface (bytes_rate / (1024 * 1024)) :: out.2.2.1, out.2.2.2)
        else
          netCheckThresholds fail threshold now k (upsert last stat.interface stat) rest
      | none =>
        netCheckThresholds fail threshold now k (upsert last stat.interface stat) rest
    | none =>
      netCheckThresholds fail threshold now k (upsert last stat.interface stat) rest

/-- One iteration's external input for a pull-style loop: whether
`self.running` still holds at the `while` test, the freshly collected
samples, and the wall clock used for alert timestamps that tick. -/
structure NetTick where
  running : Bool
  stats : List NetStat
  now : ℚ
deriving DecidableEq

/-- Observable outcome of a run of `NetworkMonitor._monitor_loop`. -/
structure PullResult where
  insertedStats : List (List NetStat)
  insertedAlerts : List Alert
  processed : Nat
  lastStats : List (String × NetStat)
deriving DecidableEq

/-- `NetworkMonitor._monitor_loop` (lines 401-414): each iteration is
wrapped in its own `try`, so a raising `insert_batch` (or a raising
alert insert inside `_check_thresholds`) only abandons the rest of that
tick — the batch is dropped, never retried — and the loop sleeps and
continues.  `k` numbers insert attempts; `processed` counts iterations
whose body ran. -/
def networkLoop (fail : Nat → Bool) (threshold : ℚ) :
    List NetTick → Nat → List (String × NetStat) → PullResult
  | [], _, last => ⟨[], [], 0, last⟩
  | t :: rest, k, last =>
    if t.running then
      if t.stats.isEmpty then
        let out := networkLoop fail threshold rest k last
        ⟨out.insertedStats, out.insertedAlerts, out.processed + 1, out.lastStats⟩
      else
        if fail k then
          let out := networkLoop fail threshold rest (k + 1) last
          ⟨out.insertedStats, out.insertedAlerts, out.processed + 1, out.lastStats⟩
        else
          let chk := netCheckThresholds fail threshold t.now (k + 1) last t.stats
          let out := networkLoop fail threshold rest chk.1 chk.2.1
          ⟨t.stats :: out.insertedStats, chk.2.2.1 ++ out.insertedAlerts,
            out.processed + 1, out.lastStats⟩
    else ⟨[], [], 0, last⟩

/-!  ## Memory threshold evaluation (`MemoryMonitor._check_thresholds`) -/

/-- `MemoryMonitor._check_thresholds(stats)` (lines 705-712): one
`WARNING` alert iff `stats['percent']` strictly exceeds the configured
memory threshold, else nothing. -/
def memCheckThresholds (threshold : ℚ) (now : ℚ) (stats : MemStats) : List Alert :=
  if threshold < stats.percent then [mkMemAlert now stats] else []

/-- One iteration's input for `MemoryMonitor._monitor_loop`. -/
structure MemTick where
  running : Bool
  stats : MemStats
  now : ℚ
deriving DecidableEq

/-- Observable outcome of a run of `MemoryMonitor._monitor_loop`. -/
structure MemResult where
  insertedStats : List MemStats
  insertedAlerts : List Alert
  processed : Nat
deriving DecidableEq

/-- `MemoryMonitor._monitor_loop` (lines 647-660): per tick, insert the
single collected sample (batch `[stats]`), then evaluate the threshold,
inserting the alert (batch of one) if it fires; each tick has its own
`try`, so a raising insert abandons only that tick. -/
def memoryLoop (fail : Nat → Bool) (threshold : ℚ) :
    List MemTick → Nat → MemResult
  | [], _ => ⟨[], [], 0⟩
  | t :: rest, k =>
    if t.running then
      if fail k then
        let out := memoryLoop fail threshold rest (k + 1)
        ⟨out.insertedStats, out.insertedAlerts, out.processed + 1⟩
      else
        match memCheckThresholds threshold t.now t.stats with
        | [] =>
          let out := memoryLoop fail threshold rest (k + 1)
          ⟨t.stats :: out.insertedStats, out.insertedAlerts, out.processed + 1⟩
        | a :: _ =>
          if fail (k + 1) then
            let out := memoryLoop fail threshold rest (k + 2)
            ⟨t.stats :: out.insertedStats, out.insertedAlerts, out.processed + 1⟩
          else
            let out := memoryLoop fail threshold rest (k + 2)
            ⟨t.stats :: out.insertedStats, a :: out.insertedAlerts, out.processed + 1⟩
    else ⟨[], [], 0⟩

/-!  ## Logcat line parsing (`LogcatMonitor._parse_logcat_line`)

The compiled pattern is
`(\d{2}-\d{2}\s+\d{2}:\d{2}:\d{2}\.\d{3})\s+(\d+)\s+(\d+)\s+([VDIWEF])\s+([^:]+):\s*(.*)`
applied with `re.match` (anchored at the start).  Every quantifier below
a literal separator is forced, so the parser is rendered as
deterministic maximal-munch steps; the single place where Python's
backtracking matters is `\s+([^:]+)`: when everything before the first
colon is whitespace, `\s+` gives one character back so that `[^:]+`
is nonempty.  The code then recombines group 1 by `split`, so the
parser extracts month/day/hour/minute/second directly (milliseconds are
dropped by the `[:3]` slice in the source). -/

/-- `[VDIWEF]`. -/
def levelChar (c : Char) : Bool :=
  c = 'V' || c = 'D' || c = 'I' || c = 'W' || c = 'E' || c = 'F'

/-- `\d{2}` followed by `int()` of the two digits. -/
def read2 : List Char → Option (Nat × List Char)
  | a :: b :: rest =>
    if a.isDigit && b.isDigit then some (10 * charToDigit a + charToDigit b, rest)
    else none
  | _ => none

/-- `\d{3}` (the milliseconds; their value is discarded by the source). -/
def read3 : List Char → Option (List Char)
  | a :: b :: c :: rest =>
    if a.isDigit && b.isDigit && c.isDigit then some rest else none
  | _ => none

/-- A literal character of the pattern. -/
def expectChar (x : Char) : List Char → Option (List Char)
  | c :: rest => if c = x then some rest else none
  | [] => none

/-- `\s+` (maximal munch; the following pattern element never matches
whitespace where this is used). -/
def ws1 (cs : List Char) : Option (List Char) :=
  if (cs.takeWhile wsChar).isEmpty then none else some (cs.dropWhile wsChar)

/-- `\d+` followed by `int()` of the digits (maximal munch; always
followed by `\s+` in the pattern). -/
def digits1 (cs : List Char) : Option (Nat × List Char) :=
  let ds := cs.takeWhile Char.isDigit
  if ds.isEmpty then none else some (digitsToNat ds, cs.dropWhile Char.isDigit)

/-- Group 1 of the pattern plus the timestamp-string dissection the
source performs on it: yields month, day, hour, minute, second. -/
def parseHeader (cs : List Char) : Option (Nat × Nat × Nat × Nat × Nat × List Char) :=
  (read2 cs).bind fun mor1 =>
  (expectChar '-' mor1.2).bind fun r2 =>
  (read2 r2).bind fun dr3 =>
  (ws1 dr3.2).bind fun r4 =>
  (read2 r4).bind fun hr5 =>
  (expectChar ':' hr5.2).bind fun r6 =>
  (read2 r6).bind fun mir7 =>
  (expectChar ':' mir7.2).bind fun r8 =>
  (read2 r8).bind fun sr9 =>
  (expectChar '.' sr9.2).bind fun r10 =>
  (read3 r10).bind fun r11 =>
  some (mor1.1, dr3.1, hr5.1, mir7.1, sr9.1, r11)

/-- `\s+(\d+)\s+(\d+)\s+([VDIWEF])`: pid, tid (parsed but unused by the
source), level. -/
def parsePidTidLevel (cs : List Char) : Option (Nat × Char × List Char) :=
  (ws1 cs).bind fun r1 =>
  (digits1 r1).bind fun pidr2 =>
  (ws1 pidr2.2).bind fun r3 =>
  (digits1 r3).bind fun tidr4 =>
  (ws1 tidr4.2).bind fun r5 =>
  match r5 with
  | c :: r6 => if levelChar c then some (pidr2.1, c, r6) else none
  | [] => none

/-- `\s+([^:]+):\s*(.*)` on the remainder after the level letter.  The
first colon bounds `[^:]+`; the leading whitespace run is `\s+` unless
it reaches the colon, in which case backtracking leaves its final
character to the tag.  The message is everything after the post-colon
whitespace run, up to a newline (`.` does not match `\n`; the loop
feeds stripped single lines). -/
def parseTagMessage (cs : List Char) : Option (String × String) :=
  let pre := cs.takeWhile (fun c => c ≠ ':')
  match cs.dropWhile (fun c => c ≠ ':') with
  | [] => none
  | _ :: afterColon =>
    let m := (pre.takeWhile wsChar).length
    let message : String := ⟨(afterColon.dropWhile wsChar).takeWhile (fun c => c ≠ '\n')⟩
    if m = 0 then none
    else if m < pre.length then some (⟨pre.drop m⟩, message)
    else if 2 ≤ pre.length then some (⟨pre.drop (pre.length - 1)⟩, message)
    else none

/-- The timestamp passed to `datetime(...)` on lines 355-360: the
current year at parse time combined with the month/day/time fields from
the line (the epoch conversion `.timestamp()` is injective on these
fields and not modelled further). -/
structure LogTimestamp where
  year : Nat
  month : Nat
  day : Nat
  hour : Nat
  minute : Nat
  second : Nat
deriving DecidableEq

/-- A row of `logcat_entries` as built by `_parse_logcat_line`. -/
structure LogEntry where
  timestamp : LogTimestamp
  level : Char
  tag : String
  pid : Nat
  message : String
  raw_entry : String
deriving DecidableEq

/-- `LogcatMonitor._parse_logcat_line` (lines 343-370): `None` when the
pattern does not match; otherwise the entry, with the timestamp rebuilt
from `datetime.now().year` and the parsed fields.  (`datetime` range
validation, which would raise on out-of-range fields, is not modelled;
the claims evaluate the parser on well-formed lines.) -/
def parseLogcatLine (year : Nat) (line : String) : Option LogEntry :=
  match parseHeader line.data with
  | none => none
  | some (mo, d, h, mi, s, r1) =>
    match parsePidTidLevel r1 with
    | none => none
    | some (pid, lvl, r2) =>
      match parseTagMessage r2 with
      | none => none
      | some (tag, msg) =>
        some ⟨⟨year, mo, d, h, mi, s⟩, lvl, tag, pid, msg, line⟩

/-- Two-digit zero-padded decimal (for building well-formed log lines). -/
def pad2 (n : Nat) : List Char := [Nat.digitChar (n / 10), Nat.digitChar (n % 10)]

/-- Three-digit zero-padded decimal. -/
def pad3 (n : Nat) : List Char :=
  [Nat.digitChar (n / 100), Nat.digitChar (n / 10 % 10), Nat.digitChar (n % 10)]

/-- Serialize a logcat entry back to the external `-v time` line format
`MM-DD HH:MM:SS.mmm PID TID L TAG: MESSAGE` (the round-trip direction
of the spec's losslessness property). -/
def mkLogcatLine (mo d h mi s ms : Nat) (pidStr tidStr : String) (lvl : Char)
    (tag msg : String) : String :=
  ⟨pad2 mo ++ '-' :: pad2 d ++ ' ' :: pad2 h ++ ':' :: pad2 mi ++ ':' :: pad2 s ++
    '.' :: pad3 ms ++ ' ' :: pidStr.data ++ ' ' :: tidStr.data ++ ' ' :: lvl ::
    ' ' :: tag.data ++ ':' :: ' ' :: msg.data⟩

/-!  ## App event parsing (`AppMonitor._parse_app_event`)

The source sets `timestamp = time.time()` first (wall clock at parse
time, threaded in as `now`) and then applies, in dict order, the five
`re.search` sub-patterns, returning the first match.  Every sub-pattern
begins with a literal, so `re.search` is rendered as: scan start
positions left to right, at each position require the literal and try
the tail; greedy `.*` inside `start_activity` prefers the rightmost
`cmp=`, and greedy `([^\s]+)` inside `crash` shrinks until
`has crashed` fits in the remainder. -/

/-- Suffix right after the first occurrence of `pat`, if any. -/
def findSub (pat : List Char) : List Char → Option (List Char)
  | [] => if pat.isEmpty then some [] else none
  | c :: cs =>
    if pat.isPrefixOf (c :: cs) then some ((c :: cs).drop pat.length)
    else findSub pat cs

/-- Whether `pat` occurs in `s`. -/
def hasSub (pat : List Char) (s : List Char) : Bool := (findSub pat s).isSome

/-- After `cmp=`: `([^/]+)/([^\s]+)` — both groups forced maximal. -/
def parseCmpTail (cs : List Char) : Option (String × String) :=
  let g1 := cs.takeWhile (fun c => c ≠ '/')
  match cs.dropWhile (fun c => c ≠ '/') with
  | [] => none
  | _ :: r =>
    if g1.isEmpty then none
    else
      let g2 := r.takeWhile (fun c => !(wsChar c))
      if g2.isEmpty then none else some (⟨g1⟩, ⟨g2⟩)

/-- The rightmost occurrence of `cmp=` whose tail parses (the greedy
`.*` of `START.*cmp=([^/]+)/([^\s]+)` prefers later occurrences). -/
def searchCmpGreedy : List Char → Option (String × String)
  | [] => none
  | c :: cs =>
    match searchCmpGreedy cs with
    | some r => some r
    | none =>
      if ("cmp=").data.isPrefixOf (c :: cs) then parseCmpTail ((c :: cs).drop 4)
      else none

/-- `re.search(r'START.*cmp=([^/]+)/([^\s]+)', line)`. -/
def searchStartActivity : List Char → Option (String × String)
  | [] => none
  | c :: cs =>
    if ("START").data.isPrefixOf (c :: cs) then
      match searchCmpGreedy ((c :: cs).drop 5) with
      | some r => some r
      | none => searchStartActivity cs
    else searchStartActivity cs

/-- After `Displayed `: `([^:]+): \+(\d+)ms`. -/
def parseDisplayedTail (cs : List Char) : Option (String × String) :=
  let g1 := cs.takeWhile (fun c => c ≠ ':')
  match cs.dropWhile (fun c => c ≠ ':') with
  | [] => none
  | _ :: r =>
    if g1.isEmpty then none
    else
      match r with
      | a :: b :: r2 =>
        if a = ' ' && b = '+' then
          let ds := r2.takeWhile Char.isDigit
          if ds.isEmpty then none
          else if ("ms").data.isPrefixOf (r2.dropWhile Char.isDigit) then
            some (⟨g1⟩, ⟨ds⟩)
          else none
        else none
      | _ => none

/-- `re.search(r'Displayed ([^:]+): \+(\d+)ms', line)`. -/
def searchDisplayed : List Char → Option (String × String)
  | [] => none
  | c :: cs =>
    if ("Displayed ").data.isPrefixOf (c :: cs) then
      match parseDisplayedTail ((c :: cs).drop 10) with
      | some r => some r
      | none => searchDisplayed cs
    else searchDisplayed cs

/-- `re.search` for a literal followed by `([^\s]+)` (the `force_stop`
and `anr` sub-patterns). -/
def searchWordAfter (lit : List Char) : List Char → Option String
  | [] => none
  | c :: cs =>
    if lit.isPrefixOf (c :: cs) then
      let g := ((c :: cs).drop lit.length).takeWhile (fun c2 => !(wsChar c2))
      if g.isEmpty then searchWordAfter lit cs else some ⟨g⟩
    else searchWordAfter lit cs

/-- Backtracking of the greedy `([^\s]+)` of the `crash` sub-pattern:
the group (held reversed) shrinks from the right until the remainder
contains `has crashed`.  Invariant: the scanned text is
`grpRev.reverse ++ rest`. -/
def crashShrink : List Char → List Char → Option (List Char)
  | [], _ => none
  | g :: gs, rest =>
    if hasSub (("has crashed").data) rest then some ((g :: gs).reverse)
    else crashShrink gs (g :: rest)

/-- `re.search(r'Process ([^\s]+).*has crashed', line)`. -/
def searchCrash : List Char → Option String
  | [] => none
  | c :: cs =>
    if ("Process ").data.isPrefixOf (c :: cs) then
      let after := (c :: cs).drop 8
      let run := after.takeWhile (fun c2 => !(wsChar c2))
      match crashShrink run.reverse (after.drop run.length) with
      | some g => some ⟨g⟩
      | none => searchCrash cs
    else searchCrash cs

/-- A row of `app_events` as built by `_parse_app_event`. -/
structure AppEvent where
  timestamp : ℚ
  package_name : String
  event_type : String
  component : String
  data : String
deriving DecidableEq

/-- `AppMonitor._parse_app_event` (lines 1059-1100): `timestamp` is the
wall clock `time.time()` taken at the top of the function (`now`); the
five sub-patterns are tried in dict order and the first match wins. -/
def parseAppEvent (now : ℚ) (line : String) : Option AppEvent :=
  match searchStartActivity line.data with
  | some r => some ⟨now, r.1, "start_activity", r.2, line⟩
  | none =>
  match searchDisplayed line.data with
  | some r =>
    some ⟨now, ⟨r.1.data.takeWhile (fun c => c ≠ '/')⟩, "activity_displayed", r.1,
      "Launch time: " ++ r.2 ++ "ms"⟩
  | none =>
  match searchWordAfter (("Force stopping ").data) line.data with
  | some pkg => some ⟨now, pkg, "force_stop", "", line⟩
  | none =>
  match searchCrash line.data with
  | some pkg => some ⟨now, pkg, "crash", "", line⟩
  | none =>
  match searchWordAfter (("ANR in ").data) line.data with
  | some pkg => some ⟨now, pkg, "anr", "", line⟩
  | none => none

/-!  ## Push-style monitor loops (`LogcatMonitor._monitor_loop`,
`AppMonitor._monitor_loop`)

Each iteration of `for line in iter(process.stdout.readline, '')` is
one `LineInput`: the value `self.running` has when the line is checked,
the line text, and `time.time()` at that iteration.  The whole `for`
loop and the final flush sit inside ONE `try`, so a raising
`insert_batch` terminates the loop (`aborted = true`): the remaining
stream is never read.  The small ring buffer (`self.buffer`, Logcat
only) is a query-side cache and is not modelled.  `processed` counts
lines whose body ran (i.e. examined past the `running` check). -/

/-- One stream line offered to a push-style loop. -/
structure LineInput where
  running : Bool
  line : String
  time : ℚ
deriving DecidableEq

/-- A successful mid-run flush with the clock and `last_flush` values
at the moment of the flush check. -/
structure FlushRec (α : Type) where
  batch : List α
  now : ℚ
  lastFlush : ℚ
deriving DecidableEq

/-- Observable outcome of a push-style loop run. -/
structure PushResult (α : Type) where
  midFlushes : List (FlushRec α)
  finalFlush : Option (List α)
  processed : Nat
  aborted : Bool
deriving DecidableEq

/-- The final flush after the `for` loop exits (lines 333-335): a
non-empty pending batch is inserted; a raising insert is caught by the
surrounding `except` (`aborted`). -/
def pushFinalize {α : Type} (fail : Nat → Bool) (k : Nat) (fl : List (FlushRec α))
    (pr : Nat) (batch : List α) : PushResult α :=
  if batch.isEmpty then ⟨fl, none, pr, false⟩
  else if fail k then ⟨fl, none, pr, true⟩
  else ⟨fl, some batch, pr, false⟩

/-- The common `for` loop skeleton of the two push-style monitors,
parameterized by the per-line parser and the batch-size limit (100 for
Logcat, 50 for App): break when `self.running` is false; parse the
line; append a parsed record to the batch; flush when the batch holds
at least `limit` records or more than 5 seconds passed since the last
flush; a raising insert aborts the whole loop (the `try` wraps the
whole `for`). -/
def pushLoopAux {α : Type} (parse : LineInput → Option α) (limit : Nat) (fail : Nat → Bool) :
    List LineInput → Nat → List (FlushRec α) → Nat → List α → ℚ → PushResult α
  | [], k, fl, pr, batch, _ => pushFinalize fail k fl pr batch
  | inp :: rest, k, fl, pr, batch, lf =>
    if inp.running then
      match parse inp with
      | none => pushLoopAux parse limit fail rest k fl (pr + 1) batch lf
      | some e =>
        let b := batch ++ [e]
        if limit ≤ b.length ∨ 5 < inp.time - lf then
          if fail k then ⟨fl, none, pr + 1, true⟩
          else pushLoopAux parse limit fail rest (k + 1) (fl ++ [⟨b, inp.time, lf⟩]) (pr + 1) [] inp.time
        else pushLoopAux parse limit fail rest k fl (pr + 1) b lf
    else pushFinalize fail k fl pr batch

/-- `LogcatMonitor._monitor_loop` body (lines 315-335): parses stripped
lines with `_parse_logcat_line` (the current year is a parameter) and
flushes at 100 records / 5 seconds; empty batch and `last_flush = t0`
(the clock just before the `for` loop) initially. -/
def logcatLoop (year : Nat) (fail : Nat → Bool) (t0 : ℚ)
    (inputs : List LineInput) : PushResult LogEntry :=
  pushLoopAux (fun inp => parseLogcatLine year (pyStrip inp.line)) 100 fail inputs 0 [] 0 [] t0

/-- `AppMonitor._monitor_loop` body (lines 1032-1051): parses stripped
lines with `_parse_app_event` (whose record timestamp is the read-time
clock of the line) and flushes at 50 records / 5 seconds (line 1044). -/
def appLoop (fail : Nat → Bool) (t0 : ℚ) (inputs : List LineInput) :
    PushResult AppEvent :=
  pushLoopAux (fun inp => parseAppEvent inp.time (pyStrip inp.line)) 50 fail inputs 0 [] 0 [] t0

/-!  ## Filesystem diffing (`FilesystemMonitor._detect_changes`) -/

/-- Value of one snapshot entry of `self.file_stats` /
`current_stats`: what `_scan_path` records per path. -/
structure FileStat where
  size : Nat
  mtime : ℚ
  permissions : String
  owner : Nat
deriving DecidableEq

/-- A snapshot map `path -> FileStat` (a Python dict, modelled as an
association list with distinct keys, in insertion order). -/
abbrev Snapshot := List (String × FileStat)

/-- A row of `filesystem_events`. -/
structure FSEvent where
  timestamp : ℚ
  event_type : String
  path : String
  size : Nat
  permissions : String
  owner : String
deriving DecidableEq

/-- A `created` event (lines 922-931). -/
def mkCreated (ts : ℚ) (p : String) (st : FileStat) : FSEvent :=
  ⟨ts, "created", p, st.size, st.permissions, natRender st.owner⟩

/-- A `modified` event (lines 933-947), fields from the new stat. -/
def mkModified (ts : ℚ) (p : String) (st : FileStat) : FSEvent :=
  ⟨ts, "modified", p, st.size, st.permissions, natRender st.owner⟩

/-- A `deleted` event (lines 949-959): size 0, empty permissions/owner. -/
def mkDeleted (ts : ℚ) (p : String) : FSEvent :=
  ⟨ts, "deleted", p, 0, "", ""⟩

/-- `FilesystemMonitor._detect_changes` (lines 909-964) given the
previous snapshot and the freshly scanned one: three passes in source
order (created over `current_stats`, modified over `current_stats`,
deleted over `self.file_stats`), then `self.file_stats = current_stats`
— the second component is the snapshot stored after the tick. -/
def detectChanges (prev cur : Snapshot) (ts : ℚ) : List FSEvent × Snapshot :=
  let created := cur.filterMap fun pe =>
    if (prev.lookup pe.1).isNone then some (mkCreated ts pe.1 pe.2) else none
  let modified := cur.filterMap fun pe =>
    match prev.lookup pe.1 with
    | some old => if old.mtime ≠ pe.2.mtime then some (mkModified ts pe.1 pe.2) else none
    | none => none
  let deleted := prev.filterMap fun pe =>
    if (cur.lookup pe.1).isNone then some (mkDeleted ts pe.1) else none
  (created ++ modified ++ deleted, cur)

/-!  ## The store (`DatabaseManager`) -/

/-- The schema-relevant state of the SQLite file: for each table its
column definition list, and for each index (by name) the table and
column it is on. -/
structure DBState where
  tables : List (String × List String)
  indexes : List (String × String × String)
deriving DecidableEq

/-- `CREATE TABLE IF NOT EXISTS name (cols…)`: no effect and no error
when a table of that name exists, else the table is added. -/
def createTableIfNotExists (st : DBState) (nm : String) (cols : List String) : DBState :=
  if (st.tables.lookup nm).isSome then st
  else ⟨st.tables ++ [(nm, cols)], st.indexes⟩

/-- `CREATE INDEX IF NOT EXISTS nm ON tbl(col)`: no effect and no error
when an index of that name exists, else the index is added. -/
def createIndexIfNotExists (st : DBState) (nm tbl col : String) : DBState :=
  if (st.indexes.lookup nm).isSome then st
  else ⟨st.tables, st.indexes ++ [(nm, tbl, col)]⟩

/-- The `schemas` dict of `init_database` (lines 118-214), in source
order: table name and column definitions. -/
def monitorSchemas : List (String × List String) :=
  [("logcat_entries",
     ["id INTEGER PRIMARY KEY AUTOINCREMENT", "timestamp REAL", "level TEXT",
      "tag TEXT", "pid INTEGER", "message TEXT", "raw_entry TEXT"]),
   ("network_stats",
     ["id INTEGER PRIMARY KEY AUTOINCREMENT", "timestamp REAL", "interface TEXT",
      "bytes_sent INTEGER", "bytes_recv INTEGER", "packets_sent INTEGER",
      "packets_recv INTEGER", "errors_in INTEGER", "errors_out INTEGER"]),
   ("process_stats",
     ["id INTEGER PRIMARY KEY AUTOINCREMENT", "timestamp REAL", "pid INTEGER",
      "name TEXT", "cpu_percent REAL", "memory_percent REAL", "memory_rss INTEGER",
      "memory_vms INTEGER", "num_threads INTEGER", "status TEXT"]),
   ("memory_stats",
     ["id INTEGER PRIMARY KEY AUTOINCREMENT", "timestamp REAL", "total INTEGER",
      "available INTEGER", "percent REAL", "used INTEGER", "free INTEGER",
      "swap_total INTEGER", "swap_used INTEGER", "swap_free INTEGER"]),
   ("battery_stats",
     ["id INTEGER PRIMARY KEY AUTOINCREMENT", "timestamp REAL", "level INTEGER",
      "status TEXT", "temperature REAL", "voltage REAL", "technology TEXT",
      "health TEXT"]),
   ("filesystem_events",
     ["id INTEGER PRIMARY KEY AUTOINCREMENT", "timestamp REAL", "event_type TEXT",
      "path TEXT", "size INTEGER", "permissions TEXT", "owner TEXT"]),
   ("app_events",
     ["id INTEGER PRIMARY KEY AUTOINCREMENT", "timestamp REAL", "package_name TEXT",
      "event_type TEXT", "component TEXT", "data TEXT"]),
   ("alerts",
     ["id INTEGER PRIMARY KEY AUTOINCREMENT", "timestamp REAL", "module TEXT",
      "severity TEXT", "message TEXT", "data TEXT"])]

/-- The `indexes` list of `init_database` (lines 220-229), in source
order: index name, table, indexed column. -/
def monitorIndexes : List (String × String × String) :=
  [("idx_logcat_timestamp", "logcat_entries", "timestamp"),
   ("idx_network_timestamp", "network_stats", "timestamp"),
   ("idx_process_timestamp", "process_stats", "timestamp"),
   ("idx_memory_timestamp", "memory_stats", "timestamp"),
   ("idx_battery_timestamp", "battery_stats", "timestamp"),
   ("idx_fs_timestamp", "filesystem_events", "timestamp"),
   ("idx_app_timestamp", "app_events", "timestamp"),
   ("idx_alerts_timestamp", "alerts", "timestamp")]

/-- The table-creation pass of `init_database`. -/
def initTables (st : DBState) : DBState :=
  monitorSchemas.foldl (fun s p => createTableIfNotExists s p.1 p.2) st

/-- The index-creation pass of `init_database`. -/
def initIndexes (st : DBState) : DBState :=
  monitorIndexes.foldl (fun s p => createIndexIfNotExists s p.1 p.2.1 p.2.2) st

/-- `DatabaseManager.init_database` (lines 112-234) as a transformer of
the schema state: all tables, then all indexes (the final `commit` does
not affect schema state). -/
def initDatabase (st : DBState) : DBState := initIndexes (initTables st)

/-!  ## `DatabaseManager.insert_batch` (lines 236-247) -/

/-- A value bound to a column in a record dict (claims only need the
values to be opaque and comparable). -/
abbrev SQLVal := Int

/-- A record dict, as an association list with distinct keys in
insertion order. -/
abbrev Row := List (String × SQLVal)

/-- `insert_batch(table, data)`: `none` models the early `return` on
empty `data` — the database is never touched.  Otherwise the executed
statement names the columns of the FIRST record only, and each row's
parameters are `row.get(col)` for those columns (`none` = SQL NULL for
a key the row lacks; keys absent from the first record are never
consulted). -/
def insert_batch (table : String) (data : List Row) :
    Option (String × List String × List (List (Option SQLVal))) :=
  match data with
  | [] => none
  | r0 :: _ =>
    let columns := r0.map Prod.fst
    some (table, columns, data.map fun row => columns.map fun c => row.lookup c)

/-!  ## Concrete fixtures used by the claim evaluations -/

/-- A store that never raises. -/
def neverFail : Nat → Bool := fun _ => false

/-- A store whose first insert attempt raises (`StoreError` once). -/
def failFirst : Nat → Bool := fun k => k == 0

/-- Fixture: an earlier sample of `wlan0`. -/
def c1Prev : NetStat := ⟨0, "wlan0", 5000000, 1000, 10, 10, 0, 0⟩

/-- Fixture: the next `wlan0` sample, with `bytes_sent` decreased by
4000000 (an interface reset), `bytes_recv` unchanged. -/
def c1Cur : NetStat := ⟨1, "wlan0", 1000000, 1000, 12, 12, 0, 0⟩

/-- Fixture: an earlier sample of `eth0`. -/
def c1PrevB : NetStat := ⟨0, "eth0", 5000000, 0, 10, 10, 0, 0⟩

/-- Fixture: the next `eth0` sample: `bytes_sent` decreased (reset) but
`bytes_recv` grew by 10^9, so the summed delta is large positive. -/
def c1CurB : NetStat := ⟨1, "eth0", 4000000, 1000000000, 12, 12, 0, 0⟩

/-- Fixture: a well-formed logcat line. -/
def lcSampleLine : String := "01-02 03:04:05.678 123 456 I Act: hello"

/-- Fixture: three parseable stream lines, all with `running` true, at
seconds 10, 11, 12 (the loop's `last_flush` starts at 0, so the first
line triggers a time-based flush). -/
def c2Inputs : List LineInput :=
  [⟨true, lcSampleLine, 10⟩, ⟨true, lcSampleLine, 11⟩, ⟨true, lcSampleLine, 12⟩]

/-- Fixture: first collected network sample batch. -/
def c2Stat1 : NetStat := ⟨0, "wlan0", 0, 0, 0, 0, 0, 0⟩

/-- Fixture: second collected network sample batch (tiny rate). -/
def c2Stat2 : NetStat := ⟨5, "wlan0", 1000, 1000, 1, 1, 0, 0⟩

/-- Fixture: two pull-style ticks for the network loop. -/
def c2Ticks : List NetTick := [⟨true, [c2Stat1], 1⟩, ⟨true, [c2Stat2], 6⟩]

/-- Fixture: one parseable app-event line (matches the `anr`
sub-pattern) arriving at clock 0 with the loop still running. -/
def c4Inp0 : LineInput := ⟨true, "ANR in x", 0⟩

/-- Fixture: the app event `_parse_app_event` produces for `c4Inp0`. -/
def anrEvt : AppEvent := ⟨0, "x", "anr", "", "ANR in x"⟩

/-- Fixture: fifty quickly-arriving parseable app-event lines (all at
clock 0, matching the `anr` sub-pattern). -/
def c4Inputs : List LineInput := List.replicate 50 c4Inp0

/-- Fixture: the entry `_parse_logcat_line` produces for
`lcSampleLine` with current year 2025. -/
def lcEntry : LogEntry := ⟨⟨2025, 1, 2, 3, 4, 5⟩, 'I', "Act", 123, "hello", lcSampleLine⟩

/-- Fixture: the app event parsed from the `anr` line read at clock 10. -/
def anrEvt10 : AppEvent := ⟨10, "x", "anr", "", "ANR in x"⟩

/-- Fixture: a memory sample at 90% with an 85% threshold in play. -/
def c6Stat : MemStats := ⟨2, 100, 10, 90, 90, 10, 0, 0, 0, []⟩

/-- Fixture: a line matching the `force_stop` sub-pattern. -/
def c5Line : String := "Force stopping com.foo"

/-- Fixture: previous filesystem snapshot `{"/x": mtime 1}`. -/
def c8Prev : Snapshot := [("/x", ⟨0, 1, "644", 0⟩)]

/-- Fixture: current filesystem snapshot
`{"/x": mtime 2, "/y": mtime 1}`. -/
def c8Cur : Snapshot := [("/x", ⟨0, 2, "644", 0⟩), ("/y", ⟨0, 1, "644", 0⟩)]

/-- Fixture: first record of a batch (keys `a`, `b`). -/
def c10Row0 : Row := [("a", 1), ("b", 2)]

/-- Fixture: second record of a batch (key `b` missing, extra key `c`). -/
def c10Row1 : Row := [("a", 3), ("c", 4)]

/-!  # Claim evaluations -/

/-- C1: the claim says a counter decrease between consecutive samples of
one interface makes the threshold evaluation SKIP the rate computation
(no rate, no negative value, no alert from that pair).  The code has no
such check: on the fixture pair with `bytes_sent` decreased, the rate IS
computed and is negative; and on a pair with `bytes_sent` decreased but
`bytes_recv` grown hugely, a `HIGH_NETWORK_USAGE` alert IS fired from
the discontinuity pair.  (The first-sample half of the claim does hold:
`c1_discontinuity_not_skipped` is the code-bug evidence for the rest.) -/
theorem c1_discontinuity_not_skipped :
    (c1Cur.bytes_sent < c1Prev.bytes_sent ∧
      netRate c1Prev c1Cur = some (-4000000) ∧ (-4000000 : ℚ) < 0) ∧
    (c1CurB.bytes_sent < c1PrevB.bytes_sent ∧
      (netCheckThresholds neverFail 100 7 0 [("eth0", c1PrevB)] [c1CurB]).2.2.1.length = 1) := by
  refine ⟨⟨by decide, ?_, by norm_num⟩, ⟨by decide, ?_⟩⟩
  · norm_num [netRate, c1Prev, c1Cur]
  · norm_num [netCheckThresholds, netRate, c1PrevB, c1CurB, List.lookup, neverFail, upsert]

/-- C2: the claim says a failed batch insert never terminates a
collector's polling loop.  True for the pull-style loops (per-iteration
`try`): the network loop below survives a first-insert failure, drops
that batch and processes the next tick.  FALSE for the push-style
loops: in the logcat loop the `try` wraps the whole `for`, so the same
first-insert failure aborts the loop after one line — the two remaining
parseable lines are never processed (processed drops from 3 to 1). -/
theorem c2_store_error_loop_fate :
    (logcatLoop 2025 failFirst 0 c2Inputs = ⟨[], none, 1, true⟩) ∧
    ((logcatLoop 2025 neverFail 0 c2Inputs).processed = 3 ∧
      (logcatLoop 2025 neverFail 0 c2Inputs).aborted = false) ∧
    ((networkLoop failFirst 100 c2Ticks 0 []).processed = 2 ∧
      (networkLoop failFirst 100 c2Ticks 0 []).insertedStats = [[c2Stat2]]) := by
  with_unfolding_all decide

/-- C6: every evaluated memory sample whose `percent` strictly exceeds
the threshold raises exactly one WARNING alert (no suppression), and a
sample at or below the threshold raises none; the loop appends per tick
exactly the alerts the check produced. -/
theorem c6_memory_threshold_alert :
    ∀ (threshold now : ℚ) (s : MemStats),
      ((memCheckThresholds threshold now s).length = if threshold < s.percent then 1 else 0) ∧
      (∀ a ∈ memCheckThresholds threshold now s,
        a.severity = "WARNING" ∧ a.module = "memory" ∧ a.timestamp = now ∧
          a.data = AlertData.mem s) ∧
      ((memoryLoop neverFail threshold [⟨true, s, now⟩] 0).insertedAlerts =
        memCheckThresholds threshold now s) := by
  intro θ now s
  refine ⟨?_, ?_, ?_⟩
  · by_cases h : θ < s.percent <;> simp [memCheckThresholds, h]
  · intro a ha
    by_cases h : θ < s.percent <;> simp [memCheckThresholds, h] at ha
    subst ha
    exact ⟨rfl, rfl, rfl, rfl⟩
  · by_cases h : θ < s.percent <;>
      simp [memoryLoop, memCheckThresholds, neverFail, h]

/-- Witness for C6 at a concrete sample (90% against an 85% threshold):
the check yields exactly one alert, that alert is the WARNING memory
alert, and the single-tick loop run appends exactly it. -/
theorem c6_memory_threshold_alert_witness :
    ((memCheckThresholds 85 3 c6Stat).length = if (85 : ℚ) < c6Stat.percent then 1 else 0) ∧
    ((mkMemAlert 3 c6Stat).severity = "WARNING" ∧ (mkMemAlert 3 c6Stat).module = "memory" ∧
      (mkMemAlert 3 c6Stat).timestamp = 3 ∧ (mkMemAlert 3 c6Stat).data = AlertData.mem c6Stat) ∧
    ((memoryLoop neverFail 85 [⟨true, c6Stat, 3⟩] 0).insertedAlerts =
      memCheckThresholds 85 3 c6Stat) :=
  ⟨(c6_memory_threshold_alert 85 3 c6Stat).1,
    (c6_memory_threshold_alert 85 3 c6Stat).2.1 (mkMemAlert 3 c6Stat) (by
      have h : memCheckThresholds 85 3 c6Stat = [mkMemAlert 3 c6Stat] := by
        norm_num [memCheckThresholds, c6Stat]
      rw [h]
      exact List.mem_singleton.mpr rfl),
    (c6_memory_threshold_alert 85 3 c6Stat).2.2⟩

/-- C7: for two consecutive same-interface samples with non-decreasing
counters and positive elapsed time, the computed rate is exactly
`(Δbytes_sent + Δbytes_recv) / Δt` with `Δt` the difference of the two
samples' own timestamps; it is non-negative; and a WARNING alert is
fired exactly when that rate in MB/s strictly exceeds the threshold. -/
theorem c7_network_rate_formula :
    ∀ (threshold now : ℚ) (prev cur : NetStat),
      prev.timestamp < cur.timestamp →
      prev.bytes_sent ≤ cur.bytes_sent →
      prev.bytes_recv ≤ cur.bytes_recv →
      netRate prev cur = some ((((cur.bytes_sent - prev.bytes_sent) +
          (cur.bytes_recv - prev.bytes_recv) : ℤ) : ℚ) / (cur.timestamp - prev.timestamp)) ∧
      (0 : ℚ) ≤ (((cur.bytes_sent - prev.bytes_sent) +
          (cur.bytes_recv - prev.bytes_recv) : ℤ) : ℚ) / (cur.timestamp - prev.timestamp) ∧
      ((netCheckThresholds neverFail threshold now 0 [(cur.interface, prev)] [cur]).2.2.1 =
        if threshold < (((cur.bytes_sent - prev.bytes_sent) +
            (cur.bytes_recv - prev.bytes_recv) : ℤ) : ℚ) / (cur.timestamp - prev.timestamp) /
            (1024 * 1024) then
          [mkNetAlert now cur.interface ((((cur.bytes_sent - prev.bytes_sent) +
            (cur.bytes_recv - prev.bytes_recv) : ℤ) : ℚ) / (cur.timestamp - prev.timestamp) /
            (1024 * 1024))]
        else []) := by
  intro θ now prev cur hlt hs hr
  have htd : (0 : ℚ) < cur.timestamp - prev.timestamp := by linarith
  have hnum : (0 : ℤ) ≤ (cur.bytes_sent - prev.bytes_sent) + (cur.bytes_recv - prev.bytes_recv) := by
    omega
  refine ⟨?_, ?_, ?_⟩
  · simp [netRate, htd]
  · exact div_nonneg (by exact_mod_cast hnum) (le_of_lt htd)
  · have hlook : ([(cur.interface, prev)].lookup cur.interface) = some prev := by
      simp [List.lookup]
    simp only [netCheckThresholds, hlook, netRate, htd, if_pos]
    split
    · simp [netCheckThresholds, neverFail]
    · rfl

/-- Witness for C7 on the fixture pair `c2Stat1 → c2Stat2`
(Δt = 5 s, Δbytes = 2000). -/
theorem c7_network_rate_formula_witness :
    (c2Stat1.timestamp < c2Stat2.timestamp ∧
      c2Stat1.bytes_sent ≤ c2Stat2.bytes_sent ∧
      c2Stat1.bytes_recv ≤ c2Stat2.bytes_recv) ∧
    (netRate c2Stat1 c2Stat2 = some ((((c2Stat2.bytes_sent - c2Stat1.bytes_sent) +
        (c2Stat2.bytes_recv - c2Stat1.bytes_recv) : ℤ) : ℚ) /
        (c2Stat2.timestamp - c2Stat1.timestamp)) ∧
      (0 : ℚ) ≤ (((c2Stat2.bytes_sent - c2Stat1.bytes_sent) +
        (c2Stat2.bytes_recv - c2Stat1.bytes_recv) : ℤ) : ℚ) /
        (c2Stat2.timestamp - c2Stat1.timestamp) ∧
      ((netCheckThresholds neverFail 100 7 0 [(c2Stat2.interface, c2Stat1)] [c2Stat2]).2.2.1 =
        if (100 : ℚ) < (((c2Stat2.bytes_sent - c2Stat1.bytes_sent) +
            (c2Stat2.bytes_recv - c2Stat1.bytes_recv) : ℤ) : ℚ) /
            (c2Stat2.timestamp - c2Stat1.timestamp) / (1024 * 1024) then
          [mkNetAlert 7 c2Stat2.interface ((((c2Stat2.bytes_sent - c2Stat1.bytes_sent) +
            (c2Stat2.bytes_recv - c2Stat1.bytes_recv) : ℤ) : ℚ) /
            (c2Stat2.timestamp - c2Stat1.timestamp) / (1024 * 1024))]
        else [])) :=
  ⟨⟨by with_unfolding_all decide, by decide, by decide⟩,
    c7_network_rate_formula 100 7 c2Stat1 c2Stat2 (by with_unfolding_all decide) (by decide)
      (by decide)⟩

/-- Helper: the after-loop flush never changes the processed count. -/
@[simp] theorem pushFinalize_processed {α : Type} (fail : Nat → Bool) (k : Nat)
    (fl : List (FlushRec α)) (pr : Nat) (batch : List α) :
    (pushFinalize fail k fl pr batch).processed = pr := by
  unfold pushFinalize
  split
  · rfl
  · split <;> rfl

/-- Helper: the after-loop flush never adds a mid-run flush. -/
@[simp] theorem pushFinalize_midFlushes {α : Type} (fail : Nat → Bool) (k : Nat)
    (fl : List (FlushRec α)) (pr : Nat) (batch : List α) :
    (pushFinalize fail k fl pr batch).midFlushes = fl := by
  unfold pushFinalize
  split
  · rfl
  · split <;> rfl

/-- Helper: a push-style loop run is unaffected by whatever the stream
would deliver after the first line at which `self.running` is false —
the loop breaks there without consuming the rest. -/
theorem pushLoopAux_stop {α : Type} (parse : LineInput → Option α) (limit : Nat)
    (fail : Nat → Bool) (inp : LineInput) (h : inp.running = false) :
    ∀ (pre rest : List LineInput) (k : Nat) (fl : List (FlushRec α)) (pr : Nat)
      (batch : List α) (lf : ℚ),
      pushLoopAux parse limit fail (pre ++ inp :: rest) k fl pr batch lf =
        pushLoopAux parse limit fail (pre ++ [inp]) k fl pr batch lf := by
  intro pre
  induction pre with
  | nil =>
    intro rest k fl pr batch lf
    simp [pushLoopAux, h]
  | cons head tail ih =>
    intro rest k fl pr batch lf
    simp only [List.cons_append, pushLoopAux]
    by_cases hr : head.running = true
    · simp only [hr, if_true]
      cases hp : parse head with
      | none => exact ih rest k fl (pr + 1) batch lf
      | some e =>
        simp only []
        split
        · split
          · rfl
          · exact ih rest (k + 1) (fl ++ [⟨batch ++ [e], head.time, lf⟩]) (pr + 1) [] head.time
        · exact ih rest k fl (pr + 1) (batch ++ [e]) lf
    · simp [hr]

/-- Helper: with the stopping line in final position, the loop examines
at most the lines before it. -/
theorem pushLoopAux_processed_stop {α : Type} (parse : LineInput → Option α) (limit : Nat)
    (fail : Nat → Bool) (inp : LineInput) (h : inp.running = false) :
    ∀ (pre : List LineInput) (k : Nat) (fl : List (FlushRec α)) (pr : Nat)
      (batch : List α) (lf : ℚ),
      (pushLoopAux parse limit fail (pre ++ [inp]) k fl pr batch lf).processed ≤
        pr + pre.length := by
  intro pre
  induction pre with
  | nil =>
    intro k fl pr batch lf
    simp [pushLoopAux, h]
  | cons head tail ih =>
    intro k fl pr batch lf
    simp only [List.cons_append, pushLoopAux]
    by_cases hr : head.running = true
    · simp only [hr, if_true, List.length_cons]
      cases hp : parse head with
      | none => exact le_trans (ih k fl (pr + 1) batch lf) (by omega)
      | some e =>
        simp only []
        split
        · split
          · simp only []
            omega
          · exact le_trans
              (ih (k + 1) (fl ++ [⟨batch ++ [e], head.time, lf⟩]) (pr + 1) [] head.time)
              (by omega)
        · exact le_trans (ih k fl (pr + 1) (batch ++ [e]) lf) (by omega)
    · simp [hr]

/-- C3: stopping a running push-style collector is not blocked by a
never-ending stream: the loop's outcome on `pre ++ inp :: rest`, where
`inp` is the first line checked after `Stop()` cleared `running`, equals
the outcome on `pre ++ [inp]` — the continuation `rest` of the stream is
never consumed, and at most `pre.length` lines are examined.  Since
every store append made by the loop is part of this outcome and the
thread `join()` inside `stop()` returns only after the loop has
returned it, no record is appended after `Stop()` returns. -/
theorem c3_stop_bounded_no_late_records :
    ∀ (year : Nat) (failL failA : Nat → Bool) (t0 : ℚ) (pre rest : List LineInput)
      (inp : LineInput), inp.running = false →
      (logcatLoop year failL t0 (pre ++ inp :: rest) = logcatLoop year failL t0 (pre ++ [inp]) ∧
        (logcatLoop year failL t0 (pre ++ inp :: rest)).processed ≤ pre.length) ∧
      (appLoop failA t0 (pre ++ inp :: rest) = appLoop failA t0 (pre ++ [inp]) ∧
        (appLoop failA t0 (pre ++ inp :: rest)).processed ≤ pre.length) := by
  intro year failL failA t0 pre rest inp h
  have hl := pushLoopAux_stop (fun i => parseLogcatLine year (pyStrip i.line)) 100 failL inp h
    pre rest 0 [] 0 [] t0
  have ha := pushLoopAux_stop (fun i => parseAppEvent i.time (pyStrip i.line)) 50 failA inp h
    pre rest 0 [] 0 [] t0
  have hl2 := pushLoopAux_processed_stop (fun i => parseLogcatLine year (pyStrip i.line)) 100
    failL inp h pre 0 [] 0 [] t0
  have ha2 := pushLoopAux_processed_stop (fun i => parseAppEvent i.time (pyStrip i.line)) 50
    failA inp h pre 0 [] 0 [] t0
  refine ⟨⟨hl, ?_⟩, ⟨ha, ?_⟩⟩
  · rw [logcatLoop, hl]
    simpa using hl2
  · rw [appLoop, ha]
    simpa using ha2

/-- Witness for C3: one running line, then the stop is observed; two
more lines keep arriving but the run equals the truncated run. -/
theorem c3_stop_bounded_no_late_records_witness :
    ((⟨false, lcSampleLine, 2⟩ : LineInput).running = false) ∧
    ((logcatLoop 2025 neverFail 0 ([⟨true, lcSampleLine, 1⟩] ++ ⟨false, lcSampleLine, 2⟩ ::
          [⟨true, lcSampleLine, 3⟩]) =
        logcatLoop 2025 neverFail 0 ([⟨true, lcSampleLine, 1⟩] ++ [⟨false, lcSampleLine, 2⟩]) ∧
      (logcatLoop 2025 neverFail 0 ([⟨true, lcSampleLine, 1⟩] ++ ⟨false, lcSampleLine, 2⟩ ::
          [⟨true, lcSampleLine, 3⟩])).processed ≤ [(⟨true, lcSampleLine, 1⟩ : LineInput)].length) ∧
      (appLoop neverFail 0 ([⟨true, lcSampleLine, 1⟩] ++ ⟨false, lcSampleLine, 2⟩ ::
          [⟨true, lcSampleLine, 3⟩]) =
        appLoop neverFail 0 ([⟨true, lcSampleLine, 1⟩] ++ [⟨false, lcSampleLine, 2⟩]) ∧
      (appLoop neverFail 0 ([⟨true, lcSampleLine, 1⟩] ++ ⟨false, lcSampleLine, 2⟩ ::
          [⟨true, lcSampleLine, 3⟩])).processed ≤ [(⟨true, lcSampleLine, 1⟩ : LineInput)].length)) :=
  ⟨rfl, c3_stop_bounded_no_late_records 2025 neverFail neverFail 0 [⟨true, lcSampleLine, 1⟩]
    [⟨true, lcSampleLine, 3⟩] ⟨false, lcSampleLine, 2⟩ rfl⟩

/-- Helper: every mid-run flush a push-style loop performs happens under
its flush condition (batch at the limit, or more than 5 seconds since
the last flush). -/
theorem pushLoopAux_midFlush_sound {α : Type} (parse : LineInput → Option α) (limit : Nat)
    (fail : Nat → Bool) :
    ∀ (inputs : List LineInput) (k : Nat) (fl : List (FlushRec α)) (pr : Nat)
      (batch : List α) (lf : ℚ),
      (∀ f ∈ fl, limit ≤ f.batch.length ∨ 5 < f.now - f.lastFlush) →
      ∀ f ∈ (pushLoopAux parse limit fail inputs k fl pr batch lf).midFlushes,
        limit ≤ f.batch.length ∨ 5 < f.now - f.lastFlush := by
  intro inputs
  induction inputs with
  | nil =>
    intro k fl pr batch lf hfl
    simpa [pushLoopAux] using hfl
  | cons head tail ih =>
    intro k fl pr batch lf hfl
    simp only [pushLoopAux]
    by_cases hr : head.running = true
    · simp only [hr, if_true]
      cases hp : parse head with
      | none => exact ih k fl (pr + 1) batch lf hfl
      | some e =>
        simp only []
        split
        · rename_i hcond
          split
          · simpa using hfl
          · refine ih (k + 1) (fl ++ [⟨batch ++ [e], head.time, lf⟩]) (pr + 1) [] head.time ?_
            intro f hf
            rcases List.mem_append.mp hf with hf | hf
            · exact hfl f hf
            · rcases List.mem_singleton.mp hf with rfl
              exact hcond
        · exact ih k fl (pr + 1) (batch ++ [e]) lf hfl
    · simpa [hr] using hfl

/-- Helper: one-step unfolding of the push-loop skeleton on a cons. -/
theorem pushLoopAux_cons {α : Type} (parse : LineInput → Option α) (limit : Nat)
    (fail : Nat → Bool) (inp : LineInput) (rest : List LineInput) (k : Nat)
    (fl : List (FlushRec α)) (pr : Nat) (batch : List α) (lf : ℚ) :
    pushLoopAux parse limit fail (inp :: rest) k fl pr batch lf =
      if inp.running then
        match parse inp with
        | none => pushLoopAux parse limit fail rest k fl (pr + 1) batch lf
        | some e =>
          if limit ≤ (batch ++ [e]).length ∨ 5 < inp.time - lf then
            if fail k then ⟨fl, none, pr + 1, true⟩
            else pushLoopAux parse limit fail rest (k + 1) (fl ++ [⟨batch ++ [e], inp.time, lf⟩])
              (pr + 1) [] inp.time
          else pushLoopAux parse limit fail rest k fl (pr + 1) (batch ++ [e]) lf
      else pushFinalize fail k fl pr batch := rfl

/-- Helper: the app loop on `n + 1` copies of the fixture line (all at
clock 0) with the batch `n + 1` short of 50 runs with no time-based
flush, accumulates all events, and flushes exactly when the batch
reaches 50 — at the final line. -/
theorem appLoop_replicate_run :
    ∀ (n k pr : Nat) (fl : List (FlushRec AppEvent)) (batch : List AppEvent),
      batch.length + (n + 1) = 50 →
      pushLoopAux (fun i => parseAppEvent i.time (pyStrip i.line)) 50 neverFail
          (List.replicate (n + 1) c4Inp0) k fl pr batch 0 =
        ⟨fl ++ [⟨batch ++ List.replicate (n + 1) anrEvt, 0, 0⟩], none, pr + (n + 1), false⟩ := by
  have hp : parseAppEvent c4Inp0.time (pyStrip c4Inp0.line) = some anrEvt := rfl
  have hrun : c4Inp0.running = true := rfl
  have ht : c4Inp0.time = 0 := rfl
  have h5 : ¬ ((5 : ℚ) < (0 : ℚ) - 0) := by norm_num
  intro n
  induction n with
  | zero =>
    intro k pr fl batch hlen
    rw [List.replicate_succ, List.replicate, pushLoopAux_cons, hrun, if_pos rfl]
    simp only [hp]
    have hb : 50 ≤ (batch ++ [anrEvt]).length := by
      simp
      omega
    simp only [if_pos (Or.inl hb)]
    simp [neverFail, pushLoopAux, pushFinalize, ht, List.replicate]
  | succ m ih =>
    intro k pr fl batch hlen
    rw [List.replicate_succ, pushLoopAux_cons, hrun, if_pos rfl]
    simp only [hp]
    have hcond : ¬ (50 ≤ (batch ++ [anrEvt]).length ∨ 5 < c4Inp0.time - 0) := by
      rw [ht]
      rintro (hlen50 | htime)
      · simp at hlen50
        omega
      · exact h5 htime
    simp only [if_neg hcond]
    rw [ih k (pr + 1) fl (batch ++ [anrEvt]) (by simp; omega)]
    simp [List.replicate_succ, List.append_assoc]
    omega

/-- Counterexample for C4: the claim says BOTH log-stream collectors
flush at 100 records / 5 seconds, but on fifty quickly-arriving
parseable lines the App collector performs a mid-run flush of 50
records with no time elapsed (its limit is 50, line 1044). -/
theorem c4_counterexample :
    ¬ (∀ f ∈ (appLoop neverFail 0 c4Inputs).midFlushes,
        100 ≤ f.batch.length ∨ 5 < f.now - f.lastFlush) := by
  intro hall
  have hrun := appLoop_replicate_run 49 0 0 [] [] (by simp)
  have hc4 : c4Inputs = List.replicate (49 + 1) c4Inp0 := rfl
  rw [appLoop, hc4, hrun] at hall
  have := hall ⟨List.replicate 50 anrEvt, 0, 0⟩ (by simp)
  rcases this with h1 | h2
  · simp at h1
  · norm_num at h2

/-- C4 (amended): the flush policy is 100 records / 5 seconds for the
Logcat loop but 50 records / 5 seconds for the App loop; in both, a
mid-run flush happens only under the loop's condition (conjuncts 1-2),
a running loop that appends a parsed record flushes exactly when the
appended batch reaches the limit or more than 5 seconds elapsed since
the last flush, the pending batch being final-flushed at stream end
otherwise (conjuncts 3-4), and when the loop is told to stop a
non-empty pending batch is flushed before the loop exits (conjuncts
5-6). -/
theorem c4_flush_policy :
    (∀ (year : Nat) (t0 : ℚ) (inputs : List LineInput),
      ∀ f ∈ (logcatLoop year neverFail t0 inputs).midFlushes,
        100 ≤ f.batch.length ∨ 5 < f.now - f.lastFlush) ∧
    (∀ (t0 : ℚ) (inputs : List LineInput),
      ∀ f ∈ (appLoop neverFail t0 inputs).midFlushes,
        50 ≤ f.batch.length ∨ 5 < f.now - f.lastFlush) ∧
    (∀ (year : Nat) (inp : LineInput) (k : Nat) (fl : List (FlushRec LogEntry)) (pr : Nat)
        (batch : List LogEntry) (lf : ℚ) (e : LogEntry),
      inp.running = true →
      parseLogcatLine year (pyStrip inp.line) = some e →
      pushLoopAux (fun i => parseLogcatLine year (pyStrip i.line)) 100 neverFail [inp]
          k fl pr batch lf =
        if 100 ≤ (batch ++ [e]).length ∨ 5 < inp.time - lf then
          ⟨fl ++ [⟨batch ++ [e], inp.time, lf⟩], none, pr + 1, false⟩
        else ⟨fl, some (batch ++ [e]), pr + 1, false⟩) ∧
    (∀ (inp : LineInput) (k : Nat) (fl : List (FlushRec AppEvent)) (pr : Nat)
        (batch : List AppEvent) (lf : ℚ) (e : AppEvent),
      inp.running = true →
      parseAppEvent inp.time (pyStrip inp.line) = some e →
      pushLoopAux (fun i => parseAppEvent i.time (pyStrip i.line)) 50 neverFail [inp]
          k fl pr batch lf =
        if 50 ≤ (batch ++ [e]).length ∨ 5 < inp.time - lf then
          ⟨fl ++ [⟨batch ++ [e], inp.time, lf⟩], none, pr + 1, false⟩
        else ⟨fl, some (batch ++ [e]), pr + 1, false⟩) ∧
    (∀ (year : Nat) (inp : LineInput) (rest : List LineInput) (k : Nat)
        (fl : List (FlushRec LogEntry)) (pr : Nat) (batch : List LogEntry) (lf : ℚ),
      inp.running = false → batch ≠ [] →
      pushLoopAux (fun i => parseLogcatLine year (pyStrip i.line)) 100 neverFail
          (inp :: rest) k fl pr batch lf = ⟨fl, some batch, pr, false⟩) ∧
    (∀ (inp : LineInput) (rest : List LineInput) (k : Nat)
        (fl : List (FlushRec AppEvent)) (pr : Nat) (batch : List AppEvent) (lf : ℚ),
      inp.running = false → batch ≠ [] →
      pushLoopAux (fun i => parseAppEvent i.time (pyStrip i.line)) 50 neverFail
          (inp :: rest) k fl pr batch lf = ⟨fl, some batch, pr, false⟩) := by
  refine ⟨?_, ?_, ?_, ?_, ?_, ?_⟩
  · intro year t0 inputs
    exact pushLoopAux_midFlush_sound _ 100 neverFail inputs 0 [] 0 [] t0 (by simp)
  · intro t0 inputs
    exact pushLoopAux_midFlush_sound _ 50 neverFail inputs 0 [] 0 [] t0 (by simp)
  · intro year inp k fl pr batch lf e hr hp
    simp only [pushLoopAux, hr, if_true, hp]
    split
    · simp [neverFail, pushLoopAux, pushFinalize]
    · simp [neverFail, pushLoopAux, pushFinalize, List.append_ne_nil_of_right_ne_nil]
  · intro inp k fl pr batch lf e hr hp
    simp only [pushLoopAux, hr, if_true, hp]
    split
    · simp [neverFail, pushLoopAux, pushFinalize]
    · simp [neverFail, pushLoopAux, pushFinalize, List.append_ne_nil_of_right_ne_nil]
  · intro year inp rest k fl pr batch lf hr hb
    simp [pushLoopAux, hr, pushFinalize, neverFail, hb]
  · intro inp rest k fl pr batch lf hr hb
    simp [pushLoopAux, hr, pushFinalize, neverFail, hb]

/-- Witness for C4 (amended) at concrete inputs: a parsed logcat line
arriving 10 s after the last flush (time-based flush fires), the same
for the app loop, and a stop with one pending record (final-flushed). -/
theorem c4_flush_policy_witness :
    ((⟨true, lcSampleLine, 10⟩ : LineInput).running = true) ∧
    (parseLogcatLine 2025 (pyStrip lcSampleLine) = some lcEntry) ∧
    (pushLoopAux (fun i => parseLogcatLine 2025 (pyStrip i.line)) 100 neverFail
        [⟨true, lcSampleLine, 10⟩] 0 [] 0 [] 0 =
      if 100 ≤ ([] ++ [lcEntry] : List LogEntry).length ∨
          5 < (⟨true, lcSampleLine, 10⟩ : LineInput).time - 0 then
        ⟨[] ++ [⟨[] ++ [lcEntry], (⟨true, lcSampleLine, 10⟩ : LineInput).time, 0⟩],
          none, 0 + 1, false⟩
      else ⟨[], some ([] ++ [lcEntry]), 0 + 1, false⟩) ∧
    (parseAppEvent (⟨true, "ANR in x", 10⟩ : LineInput).time
        (pyStrip (⟨true, "ANR in x", 10⟩ : LineInput).line) = some anrEvt10) ∧
    (pushLoopAux (fun i => parseAppEvent i.time (pyStrip i.line)) 50 neverFail
        [⟨true, "ANR in x", 10⟩] 0 [] 0 [] 0 =
      if 50 ≤ ([] ++ [anrEvt10] : List AppEvent).length ∨
          5 < (⟨true, "ANR in x", 10⟩ : LineInput).time - 0 then
        ⟨[] ++ [⟨[] ++ [anrEvt10], (⟨true, "ANR in x", 10⟩ : LineInput).time, 0⟩],
          none, 0 + 1, false⟩
      else ⟨[], some ([] ++ [anrEvt10]), 0 + 1, false⟩) ∧
    (pushLoopAux (fun i => parseAppEvent i.time (pyStrip i.line)) 50 neverFail
        [⟨false, "ANR in x", 10⟩] 0 [] 0 [anrEvt] 0 = ⟨[], some [anrEvt], 0, false⟩) :=
  ⟨rfl, by decide,
    c4_flush_policy.2.2.1 2025 ⟨true, lcSampleLine, 10⟩ 0 [] 0 [] 0 lcEntry rfl (by decide),
    rfl,
    c4_flush_policy.2.2.2.1 ⟨true, "ANR in x", 10⟩ 0 [] 0 [] 0 anrEvt10 rfl rfl,
    c4_flush_policy.2.2.2.2.2 ⟨false, "ANR in x", 10⟩ [] 0 [] 0 [anrEvt] 0 rfl (by simp)⟩

/-- Helper: `takeWhile`/`dropWhile` split at the first failing element. -/
theorem takeWhile_append_stop (p : Char → Bool) :
    ∀ (l : List Char) (c : Char) (r : List Char), (∀ x ∈ l, p x = true) → p c = false →
      (l ++ c :: r).takeWhile p = l ∧ (l ++ c :: r).dropWhile p = c :: r := by
  intro l
  induction l with
  | nil =>
    intro c r _ hc
    simp [List.takeWhile_cons, List.dropWhile_cons, hc]
  | cons a t ih =>
    intro c r hl hc
    have ha : p a = true := hl a (List.mem_cons_self a t)
    have ht := ih c r (fun x hx => hl x (List.mem_cons_of_mem a hx)) hc
    simp [List.takeWhile_cons, List.dropWhile_cons, ha, ht.1, ht.2]

/-- Helper: `takeWhile` keeps a list all of whose elements pass. -/
theorem takeWhile_all (p : Char → Bool) :
    ∀ l : List Char, (∀ x ∈ l, p x = true) → l.takeWhile p = l := by
  intro l
  induction l with
  | nil => intro _; rfl
  | cons a t ih =>
    intro hl
    have ha : p a = true := hl a (List.mem_cons_self a t)
    simp [List.takeWhile_cons, ha, ih (fun x hx => hl x (List.mem_cons_of_mem a hx))]

/-- Helper: `Nat.digitChar` of a digit value is a digit character with
that value. -/
theorem digitChar_spec (k : Nat) (h : k < 10) :
    (Nat.digitChar k).isDigit = true ∧ charToDigit (Nat.digitChar k) = k := by
  interval_cases k <;> exact ⟨by decide, by decide⟩

/-- Helper: a digit character is not whitespace. -/
theorem isDigit_not_ws (c : Char) (h : c.isDigit = true) : wsChar c = false := by
  cases hw : wsChar c
  · rfl
  · exfalso
    simp only [wsChar, Bool.or_eq_true, decide_eq_true_eq] at hw
    rcases hw with ((((rfl | rfl) | rfl) | rfl) | rfl) | rfl <;> exact absurd h (by decide)

/-- Helper: a level letter is not whitespace. -/
theorem levelChar_not_ws (c : Char) (h : levelChar c = true) : wsChar c = false := by
  simp only [levelChar, Bool.or_eq_true, decide_eq_true_eq] at h
  rcases h with ((((rfl | rfl) | rfl) | rfl) | rfl) | rfl <;> decide

/-- Helper: `read2` on two rendered digits. -/
theorem read2_digits (a b : Char) (r : List Char) (ha : a.isDigit = true)
    (hb : b.isDigit = true) :
    read2 (a :: b :: r) = some (10 * charToDigit a + charToDigit b, r) := by
  simp [read2, ha, hb]

/-- Helper: `read3` on three rendered digits. -/
theorem read3_digits (a b c : Char) (r : List Char) (ha : a.isDigit = true)
    (hb : b.isDigit = true) (hc : c.isDigit = true) :
    read3 (a :: b :: c :: r) = some r := by
  simp [read3, ha, hb, hc]

/-- Helper: `expectChar` on its own literal. -/
theorem expectChar_cons (x : Char) (r : List Char) : expectChar x (x :: r) = some r := by
  simp [expectChar]

/-- Helper: `ws1` on a single space followed by a non-space. -/
theorem ws1_single (c : Char) (r : List Char) (hc : wsChar c = false) :
    ws1 (' ' :: c :: r) = some (c :: r) := by
  have h := takeWhile_append_stop wsChar [' '] c r
    (by intro x hx; rcases List.mem_singleton.mp hx with rfl; decide) hc
  simp only [List.singleton_append] at h
  simp [ws1, h.1, h.2]

/-- Helper: `digits1` on a nonempty digit run bounded by a non-digit,
stated on the cons-normalized shape. -/
theorem digits1_run (d0 : Char) (ds : List Char) (c : Char) (r : List Char)
    (hd : ∀ x ∈ d0 :: ds, x.isDigit = true) (hc : c.isDigit = false) :
    digits1 (d0 :: (ds ++ c :: r)) = some (digitsToNat (d0 :: ds), c :: r) := by
  have h := takeWhile_append_stop Char.isDigit (d0 :: ds) c r hd hc
  simp only [List.cons_append] at h
  simp [digits1, h.1, h.2]

/-- Helper: the header parser on a well-formed serialized prefix
recovers the five timestamp fields and leaves the rest untouched. -/
theorem parseHeader_mk (mo d h mi s ms : Nat) (hmo : mo < 100) (hd : d < 100)
    (hh : h < 100) (hmi : mi < 100) (hs : s < 100) (hms : ms < 1000) (r : List Char) :
    parseHeader (pad2 mo ++ '-' :: pad2 d ++ ' ' :: pad2 h ++ ':' :: pad2 mi ++ ':' :: pad2 s ++
        '.' :: pad3 ms ++ r) = some (mo, d, h, mi, s, r) := by
  obtain ⟨a1, v1⟩ := digitChar_spec (mo / 10) (by omega)
  obtain ⟨a2, v2⟩ := digitChar_spec (mo % 10) (by omega)
  obtain ⟨b1, w1⟩ := digitChar_spec (d / 10) (by omega)
  obtain ⟨b2, w2⟩ := digitChar_spec (d % 10) (by omega)
  obtain ⟨c1, x1⟩ := digitChar_spec (h / 10) (by omega)
  obtain ⟨c2, x2⟩ := digitChar_spec (h % 10) (by omega)
  obtain ⟨d1, y1⟩ := digitChar_spec (mi / 10) (by omega)
  obtain ⟨d2, y2⟩ := digitChar_spec (mi % 10) (by omega)
  obtain ⟨e1, z1⟩ := digitChar_spec (s / 10) (by omega)
  obtain ⟨e2, z2⟩ := digitChar_spec (s % 10) (by omega)
  obtain ⟨f1, u1⟩ := digitChar_spec (ms / 100) (by omega)
  obtain ⟨f2, u2⟩ := digitChar_spec (ms / 10 % 10) (by omega)
  obtain ⟨f3, u3⟩ := digitChar_spec (ms % 10) (by omega)
  have hws : wsChar (Nat.digitChar (h / 10)) = false := isDigit_not_ws _ c1
  simp only [pad2, pad3, List.cons_append, List.append_assoc, List.nil_append, parseHeader,
    read2_digits _ _ _ a1 a2, read2_digits _ _ _ b1 b2, read2_digits _ _ _ c1 c2,
    read2_digits _ _ _ d1 d2, read2_digits _ _ _ e1 e2, read3_digits _ _ _ _ f1 f2 f3,
    expectChar_cons, ws1_single _ _ hws, Option.some_bind,
    v1, v2, w1, w2, x1, x2, y1, y2, z1, z2]
  refine congrArg some ?_
  simp only [Prod.mk.injEq]
  refine ⟨by omega, by omega, by omega, by omega, by omega, trivial⟩

/-- Helper: the pid/tid/level parser on a well-formed serialized middle
segment recovers `int(pid)` and the level letter. -/
theorem parsePidTidLevel_mk (pid tid : List Char) (lvl : Char) (rest : List Char)
    (hpne : pid ≠ []) (hpd : ∀ x ∈ pid, x.isDigit = true)
    (htne : tid ≠ []) (htd : ∀ x ∈ tid, x.isDigit = true)
    (hlvl : levelChar lvl = true) :
    parsePidTidLevel (' ' :: pid ++ ' ' :: tid ++ ' ' :: lvl :: rest) =
      some (digitsToNat pid, lvl, rest) := by
  obtain ⟨p0, prest, rfl⟩ := List.exists_cons_of_ne_nil hpne
  obtain ⟨t0, trest, rfl⟩ := List.exists_cons_of_ne_nil htne
  have hp0 : wsChar p0 = false := isDigit_not_ws _ (hpd p0 (List.mem_cons_self _ _))
  have ht0 : wsChar t0 = false := isDigit_not_ws _ (htd t0 (List.mem_cons_self _ _))
  have hlw : wsChar lvl = false := levelChar_not_ws _ hlvl
  have hsp : (' ' : Char).isDigit = false := by decide
  simp only [List.cons_append, List.append_assoc, List.nil_append, parsePidTidLevel]
  rw [ws1_single _ _ hp0]
  simp only [Option.some_bind]
  rw [digits1_run p0 prest _ _ hpd hsp]
  simp only [Option.some_bind]
  rw [ws1_single _ _ ht0]
  simp only [Option.some_bind]
  rw [digits1_run t0 trest _ _ htd hsp]
  simp only [Option.some_bind]
  rw [ws1_single _ _ hlw]
  simp only [Option.some_bind, hlvl, if_true]

/-- Helper: the tag/message parser on a well-formed serialized tail
recovers tag and message exactly. -/
theorem parseTagMessage_mk (tc : Char) (tr : List Char) (msg : List Char)
    (htc : wsChar tc = false) (hcolon : ∀ x ∈ tc :: tr, x ≠ ':')
    (hnl : ∀ x ∈ msg, x ≠ '\n')
    (hmh : ∀ c, msg.head? = some c → wsChar c = false) :
    parseTagMessage (' ' :: (tc :: tr) ++ ':' :: ' ' :: msg) = some (⟨tc :: tr⟩, ⟨msg⟩) := by
  have hsplit := takeWhile_append_stop (fun c => decide (c ≠ ':')) (' ' :: tc :: tr) ':' (' ' :: msg)
    (by
      intro x hx
      rcases List.mem_cons.mp hx with rfl | hx
      · decide
      · simpa using hcolon x hx)
    (by decide)
  have hspw : wsChar ' ' = true := by decide
  have hm : ((' ' :: tc :: tr).takeWhile wsChar).length = 1 := by
    have h0 : (tc :: tr).takeWhile wsChar = [] := by
      simp [List.takeWhile_cons, htc]
    simp [List.takeWhile_cons, h0, hspw]
  have hdrop : (' ' :: msg).dropWhile wsChar = msg := by
    cases msg with
    | nil => simp [List.dropWhile_cons, hspw]
    | cons m0 mrest =>
      have := hmh m0 rfl
      simp [List.dropWhile_cons, this, hspw]
  have htake : msg.takeWhile (fun c => decide (c ≠ '\n')) = msg :=
    takeWhile_all _ msg (by intro x hx; simpa using hnl x hx)
  simp only [List.cons_append, parseTagMessage] at hsplit ⊢
  rw [hsplit.1, hsplit.2]
  simp only [hm, List.length_cons, hdrop, htake]
  rw [if_neg (by omega), if_pos (by omega)]
  simp

/-- C5 (amended): for Logcat, the produced record's timestamp fields
are exactly the current year at parse time combined with the
month/day/hour/minute/second parsed from the line (milliseconds are
discarded), and level/tag/message round-trip losslessly through
serialization; for App (second conjunct), the produced record's
timestamp is the wall clock at which the line was read, for every
matching line. -/
theorem c5_timestamp_and_roundtrip :
    (∀ (year mo d h mi s ms : Nat) (pidStr tidStr : String) (lvl : Char) (tag msg : String),
      mo < 100 → d < 100 → h < 100 → mi < 100 → s < 100 → ms < 1000 →
      pidStr.data ≠ [] → (∀ x ∈ pidStr.data, x.isDigit = true) →
      tidStr.data ≠ [] → (∀ x ∈ tidStr.data, x.isDigit = true) →
      levelChar lvl = true →
      tag.data ≠ [] → (∀ x ∈ tag.data, x ≠ ':') →
      (∀ c, tag.data.head? = some c → wsChar c = false) →
      (∀ x ∈ msg.data, x ≠ '\n') →
      (∀ c, msg.data.head? = some c → wsChar c = false) →
      parseLogcatLine year (mkLogcatLine mo d h mi s ms pidStr tidStr lvl tag msg) =
        some ⟨⟨year, mo, d, h, mi, s⟩, lvl, tag, digitsToNat pidStr.data, msg,
          mkLogcatLine mo d h mi s ms pidStr tidStr lvl tag msg⟩) ∧
    (∀ (now : ℚ) (line : String) (e : AppEvent),
      parseAppEvent now line = some e → e.timestamp = now) := by
  constructor
  · intro year mo d h mi s ms pidStr tidStr lvl tag msg hmo hd hh hmi hs hms hpne hpd htne htd
      hlvl htagne htagc htagh hmsgnl hmsgh
    obtain ⟨tc, tr, htag⟩ := List.exists_cons_of_ne_nil htagne
    have htcw : wsChar tc = false := htagh tc (by rw [htag]; rfl)
    have hhead := parseHeader_mk mo d h mi s ms hmo hd hh hmi hs hms
      (' ' :: pidStr.data ++ ' ' :: tidStr.data ++ ' ' :: lvl :: ' ' :: tag.data ++
        ':' :: ' ' :: msg.data)
    have hmid := parsePidTidLevel_mk pidStr.data tidStr.data lvl
      (' ' :: tag.data ++ ':' :: ' ' :: msg.data) hpne hpd htne htd hlvl
    have htail := parseTagMessage_mk tc tr msg.data htcw (htag ▸ htagc) hmsgnl hmsgh
    rw [← htag] at htail
    simp only [List.cons_append, List.append_assoc, List.nil_append] at hhead hmid htail
    simp only [parseLogcatLine, mkLogcatLine, List.cons_append, List.append_assoc,
      List.nil_append]
    simp only [hhead]
    simp only [hmid]
    simp only [htail]
  · intro now line e h
    unfold parseAppEvent at h
    repeat' split at h
    all_goals first
      | exact Option.noConfusion h
      | (rcases Option.some.inj h with rfl; rfl)

/-- Counterexample for C5: for the App collector the record timestamp
is NOT reconstructed from the line — the same line read at two
different wall-clock instants yields two different timestamps (each
equal to the read-time clock). -/
theorem c5_counterexample :
    (parseAppEvent 1000 c5Line).map AppEvent.timestamp = some 1000 ∧
    (parseAppEvent 2000 c5Line).map AppEvent.timestamp = some 2000 ∧
    (1000 : ℚ) ≠ 2000 := by
  refine ⟨rfl, rfl, by norm_num⟩

/-- Witness for C5 (amended) on a concrete serialized line and a
concrete app line. -/
theorem c5_timestamp_and_roundtrip_witness :
    (parseLogcatLine 2025 (mkLogcatLine 1 2 3 4 5 678 ("123") ("456") ('I') ("Act") ("hello")) =
      some ⟨⟨2025, 1, 2, 3, 4, 5⟩, 'I', "Act", digitsToNat ("123").data, "hello",
        mkLogcatLine 1 2 3 4 5 678 ("123") ("456") ('I') ("Act") ("hello")⟩) ∧
    (parseAppEvent 7 c5Line = some ⟨7, "com.foo", "force_stop", "", c5Line⟩) ∧
    ((⟨7, "com.foo", "force_stop", "", c5Line⟩ : AppEvent).timestamp = 7) :=
  ⟨c5_timestamp_and_roundtrip.1 2025 1 2 3 4 5 678 ("123") ("456") ('I') ("Act") ("hello")
      (by omega) (by omega) (by omega) (by omega) (by omega) (by omega)
      (by decide) (by decide) (by decide) (by decide) (by decide) (by decide) (by decide)
      (by decide) (by decide) (by decide),
    rfl,
    c5_timestamp_and_roundtrip.2 7 c5Line ⟨7, "com.foo", "force_stop", "", c5Line⟩ rfl⟩

/-- Helper: a key absent from an association list looks up to `none`. -/
theorem lookup_none_of_not_mem {β : Type} (p : String) :
    ∀ l : List (String × β), p ∉ l.map Prod.fst → l.lookup p = none := by
  intro l
  induction l with
  | nil => intro _; rfl
  | cons a t ih =>
    obtain ⟨a1, a2⟩ := a
    intro hp
    simp only [List.map_cons, List.mem_cons, not_or] at hp
    have hbeq : (p == a1) = false := by
      simp [hp.1]
    simp [List.lookup, hbeq, ih hp.2]

/-- Helper: over a snapshot with distinct keys, a key-preserving
filter-map produces at most one event per path: counting the events at
path `p` of kind `s` gives 1 exactly when `p`'s entry produces one. -/
theorem countP_filterMap_keyed (g : String × FileStat → Option FSEvent) (s : String)
    (hg : ∀ pe e, g pe = some e → e.path = pe.1 ∧ e.event_type = s) (p : String) :
    ∀ l : Snapshot, (l.map Prod.fst).Nodup →
      ((l.filterMap g).countP fun e => e.path == p && e.event_type == s) =
        match l.lookup p with
        | some v => match g (p, v) with | some _ => 1 | none => 0
        | none => 0 := by
  intro l
  induction l with
  | nil => intro _; rfl
  | cons a t ih =>
    obtain ⟨a1, a2⟩ := a
    intro hnd
    simp only [List.map_cons, List.nodup_cons] at hnd
    obtain ⟨hna, hndt⟩ := hnd
    rw [List.filterMap_cons]
    by_cases hp : a1 = p
    · subst hp
      have hl : List.lookup a1 ((a1, a2) :: t) = some a2 := by
        simp [List.lookup]
      have h0 : List.lookup a1 t = none := lookup_none_of_not_mem a1 t hna
      cases hga : g (a1, a2) with
      | none =>
        rw [ih hndt, h0, hl]
        simp [hga]
      | some e =>
        obtain ⟨hep, het⟩ := hg (a1, a2) e hga
        rw [List.countP_cons, ih hndt, h0, hl]
        simp [hga, hep, het]
    · have hne : p ≠ a1 := fun hh => hp hh.symm
      have hbeq : (p == a1) = false := beq_eq_false_iff_ne.mpr hne
      have hl : List.lookup p ((a1, a2) :: t) = List.lookup p t := by
        simp [List.lookup, hbeq]
      cases hga : g (a1, a2) with
      | none => rw [ih hndt, hl]
      | some e =>
        obtain ⟨hep, het⟩ := hg (a1, a2) e hga
        rw [List.countP_cons, ih hndt, hl]
        have hpred : (e.path == p && e.event_type == s) = false := by
          simp [hep, hp]
        simp [hpred]

/-- Helper: a filter-map producing only events of kind `s` contributes
nothing to the count of a different kind `s'`. -/
theorem countP_filterMap_other (g : String × FileStat → Option FSEvent) (s s' : String)
    (hne : s ≠ s') (hg : ∀ pe e, g pe = some e → e.event_type = s) (p : String)
    (l : Snapshot) :
    ((l.filterMap g).countP fun e => e.path == p && e.event_type == s') = 0 := by
  rw [List.countP_eq_zero]
  intro e he
  obtain ⟨pe, _, hpe⟩ := List.mem_filterMap.mp he
  have := hg pe e hpe
  simp [this, hne]

/-- C8: one filesystem tick emits exactly one `created` event per path
newly present, one `modified` event per path present in both snapshots
with a changed mtime, and one `deleted` event (size 0, empty
permissions and owner) per path that disappeared; every event carries
the tick's timestamp and one of the three kinds, and the new snapshot
replaces the stored one at the end of the tick.  (Counts are stated per
path `p`; `isSome`/`isNone` of `lookup` express membership in the
snapshot maps, which hold distinct keys.) -/
theorem c8_filesystem_diff :
    ∀ (prev cur : Snapshot) (ts : ℚ),
      (prev.map Prod.fst).Nodup → (cur.map Prod.fst).Nodup →
      ((detectChanges prev cur ts).2 = cur) ∧
      (∀ p : String,
        ((detectChanges prev cur ts).1.countP
            fun e => e.path == p && e.event_type == "created") =
          if (cur.lookup p).isSome ∧ (prev.lookup p).isNone then 1 else 0) ∧
      (∀ p : String,
        ((detectChanges prev cur ts).1.countP
            fun e => e.path == p && e.event_type == "modified") =
          match cur.lookup p, prev.lookup p with
          | some n, some o => if o.mtime ≠ n.mtime then 1 else 0
          | _, _ => 0) ∧
      (∀ p : String,
        ((detectChanges prev cur ts).1.countP
            fun e => e.path == p && e.event_type == "deleted") =
          if (prev.lookup p).isSome ∧ (cur.lookup p).isNone then 1 else 0) ∧
      (∀ e ∈ (detectChanges prev cur ts).1,
        e.timestamp = ts ∧
        (e.event_type = "created" ∨ e.event_type = "modified" ∨ e.event_type = "deleted") ∧
        (e.event_type = "deleted" → e.size = 0 ∧ e.permissions = "" ∧ e.owner = "")) := by
  intro prev cur ts hp hc
  have hgc : ∀ (pe : String × FileStat) (e : FSEvent),
      (if (prev.lookup pe.1).isNone then some (mkCreated ts pe.1 pe.2)
      else none) = some e → e.path = pe.1 ∧ e.event_type = "created" := by
    intro pe e he
    split at he
    · cases Option.some.inj he
      exact ⟨rfl, rfl⟩
    · exact Option.noConfusion he
  have hgm : ∀ (pe : String × FileStat) (e : FSEvent),
      (match prev.lookup pe.1 with
      | some old => if old.mtime ≠ pe.2.mtime then some (mkModified ts pe.1 pe.2) else none
      | none => none) = some e → e.path = pe.1 ∧ e.event_type = "modified" := by
    intro pe e he
    split at he
    · split at he
      · cases Option.some.inj he
        exact ⟨rfl, rfl⟩
      · exact Option.noConfusion he
    · exact Option.noConfusion he
  have hgd : ∀ (pe : String × FileStat) (e : FSEvent),
      (if (cur.lookup pe.1).isNone then some (mkDeleted ts pe.1)
      else none) = some e → e.path = pe.1 ∧ e.event_type = "deleted" := by
    intro pe e he
    split at he
    · cases Option.some.inj he
      exact ⟨rfl, rfl⟩
    · exact Option.noConfusion he
  refine ⟨rfl, ?_, ?_, ?_, ?_⟩
  · intro p
    simp only [detectChanges, List.countP_append]
    rw [countP_filterMap_keyed _ ("created") hgc p cur hc,
      countP_filterMap_other _ ("modified") ("created") (by decide) (fun pe e he => (hgm pe e he).2) p cur,
      countP_filterMap_other _ ("deleted") ("created") (by decide) (fun pe e he => (hgd pe e he).2) p prev]
    cases hcl : cur.lookup p with
    | none => simp
    | some n =>
      cases hpl : prev.lookup p with
      | none => simp [hpl]
      | some o => simp [hpl]
  · intro p
    simp only [detectChanges, List.countP_append]
    rw [countP_filterMap_keyed _ ("modified") hgm p cur hc,
      countP_filterMap_other _ ("created") ("modified") (by decide) (fun pe e he => (hgc pe e he).2) p cur,
      countP_filterMap_other _ ("deleted") ("modified") (by decide) (fun pe e he => (hgd pe e he).2) p prev]
    cases hcl : cur.lookup p with
    | none => simp
    | some n =>
      cases hpl : prev.lookup p with
      | none => simp [hpl]
      | some o => by_cases hmm : o.mtime = n.mtime <;> simp [hpl, hmm]
  · intro p
    simp only [detectChanges, List.countP_append]
    rw [countP_filterMap_keyed _ ("deleted") hgd p prev hp,
      countP_filterMap_other _ ("created") ("deleted") (by decide) (fun pe e he => (hgc pe e he).2) p cur,
      countP_filterMap_other _ ("modified") ("deleted") (by decide) (fun pe e he => (hgm pe e he).2) p cur]
    cases hpl : prev.lookup p with
    | none => simp
    | some o =>
      cases hcl : cur.lookup p with
      | none => simp [hcl]
      | some n => simp [hcl]
  · intro e he
    simp only [detectChanges, List.mem_append] at he
    rcases he with (he | he) | he
    · obtain ⟨pe, _, hpe⟩ := List.mem_filterMap.mp he
      have he' : e = mkCreated ts pe.1 pe.2 := by
        rcases ite_eq_iff.mp hpe with ⟨_, hsome⟩ | ⟨_, hnone⟩
        · exact (Option.some.inj hsome).symm
        · exact Option.noConfusion hnone
      subst he'
      refine ⟨rfl, Or.inl rfl, ?_⟩
      intro hdel
      simp [mkCreated] at hdel
    · obtain ⟨pe, _, hpe⟩ := List.mem_filterMap.mp he
      have he' : e = mkModified ts pe.1 pe.2 := by
        rcases hx : prev.lookup pe.1 with _ | old
        · simp [hx] at hpe
        · simp only [hx] at hpe
          rcases ite_eq_iff.mp hpe with ⟨_, hsome⟩ | ⟨_, hnone⟩
          · exact (Option.some.inj hsome).symm
          · exact Option.noConfusion hnone
      subst he'
      refine ⟨rfl, Or.inr (Or.inl rfl), ?_⟩
      intro hdel
      simp [mkModified] at hdel
    · obtain ⟨pe, _, hpe⟩ := List.mem_filterMap.mp he
      have he' : e = mkDeleted ts pe.1 := by
        rcases ite_eq_iff.mp hpe with ⟨_, hsome⟩ | ⟨_, hnone⟩
        · exact (Option.some.inj hsome).symm
        · exact Option.noConfusion hnone
      subst he'
      exact ⟨rfl, Or.inr (Or.inr rfl), fun _ => ⟨rfl, rfl, rfl⟩⟩

/-- Witness for C8 on the spec's concrete example:
P = `{"/x": mtime 1}`, C = `{"/x": mtime 2, "/y": mtime 1}`. -/
theorem c8_filesystem_diff_witness :
    ((c8Prev.map Prod.fst).Nodup ∧ (c8Cur.map Prod.fst).Nodup) ∧
    ((detectChanges c8Prev c8Cur 9).2 = c8Cur) ∧
    (((detectChanges c8Prev c8Cur 9).1.countP
        fun e => e.path == "/y" && e.event_type == "created") = 1) ∧
    (((detectChanges c8Prev c8Cur 9).1.countP
        fun e => e.path == "/x" && e.event_type == "modified") = 1) ∧
    (((detectChanges c8Prev c8Cur 9).1.countP
        fun e => e.path == "/x" && e.event_type == "created") = 0) ∧
    (((detectChanges c8Prev c8Cur 9).1.countP
        fun e => e.path == "/x" && e.event_type == "deleted") = 0) ∧
    ((detectChanges c8Prev c8Cur 9).1.length = 2) := by
  have h := c8_filesystem_diff c8Prev c8Cur 9 (by decide) (by decide)
  refine ⟨⟨by decide, by decide⟩, h.1, ?_, ?_, ?_, ?_, by decide⟩
  · rw [h.2.1 ("/y")]
    decide
  · rw [h.2.2.1 ("/x")]
    decide
  · rw [h.2.1 ("/x")]
    decide
  · rw [h.2.2.2.1 ("/x")]
    decide

/-- Helper: a lookup that succeeds on the left part of an append
ignores the right part. -/
theorem lookup_append_isSome {β : Type} (k : String) :
    ∀ (l1 l2 : List (String × β)), (l1.lookup k).isSome →
      (l1 ++ l2).lookup k = l1.lookup k := by
  intro l1
  induction l1 with
  | nil => intro l2 h; simp at h
  | cons a t ih =>
    obtain ⟨a1, a2⟩ := a
    intro l2 h
    cases hk : (k == a1) with
    | true => simp [List.lookup, hk]
    | false =>
      simp only [List.lookup, hk] at h
      simp [List.lookup, hk, ih l2 h]

/-- Helper: a lookup that fails on the left part of an append falls
through to the right part. -/
theorem lookup_append_none {β : Type} (k : String) :
    ∀ (l1 l2 : List (String × β)), l1.lookup k = none →
      (l1 ++ l2).lookup k = l2.lookup k := by
  intro l1
  induction l1 with
  | nil => intro l2 _; rfl
  | cons a t ih =>
    obtain ⟨a1, a2⟩ := a
    intro l2 h
    cases hk : (k == a1) with
    | true => simp [List.lookup, hk] at h
    | false =>
      simp only [List.lookup, hk] at h
      simp [List.lookup, hk, ih l2 h]

/-- Helper: the table-creation pass never loses an existing table. -/
theorem tablesFold_keeps (L : List (String × List String)) :
    ∀ (st : DBState) (nm : String), (st.tables.lookup nm).isSome →
      ((L.foldl (fun s q => createTableIfNotExists s q.1 q.2) st).tables.lookup nm).isSome := by
  induction L with
  | nil => intro st nm h; exact h
  | cons q t ih =>
    intro st nm h
    simp only [List.foldl_cons]
    apply ih
    unfold createTableIfNotExists
    split
    · exact h
    · simpa [lookup_append_isSome nm st.tables [(q.1, q.2)] h] using h

/-- Helper: after the table-creation pass, every listed table exists. -/
theorem tablesFold_mem (L : List (String × List String)) :
    ∀ (st : DBState) (q : String × List String), q ∈ L →
      ((L.foldl (fun s r => createTableIfNotExists s r.1 r.2) st).tables.lookup q.1).isSome := by
  induction L with
  | nil => intro st q h; simp at h
  | cons r t ih =>
    intro st q hq
    simp only [List.foldl_cons]
    rcases List.mem_cons.mp hq with rfl | hq
    · apply tablesFold_keeps t
      unfold createTableIfNotExists
      split
      · rename_i hs
        exact hs
      · rename_i hs
        have hnone : st.tables.lookup q.1 = none := by
          cases hx : st.tables.lookup q.1
          · rfl
          · rw [hx] at hs
            simp at hs
        simp [lookup_append_none q.1 st.tables [(q.1, q.2)] hnone, List.lookup]
    · exact ih _ q hq

/-- Helper: the table-creation pass is the identity when every listed
table already exists. -/
theorem tablesFold_id (L : List (String × List String)) :
    ∀ st : DBState, (∀ q ∈ L, (st.tables.lookup q.1).isSome) →
      L.foldl (fun s r => createTableIfNotExists s r.1 r.2) st = st := by
  induction L with
  | nil => intro st _; rfl
  | cons r t ih =>
    intro st h
    simp only [List.foldl_cons]
    have hr : createTableIfNotExists st r.1 r.2 = st := by
      unfold createTableIfNotExists
      rw [if_pos (h r (List.mem_cons_self r t))]
    rw [hr]
    exact ih st fun q hq => h q (List.mem_cons_of_mem _ hq)

/-- Helper: the index-creation pass never loses an existing index. -/
theorem indexesFold_keeps (L : List (String × String × String)) :
    ∀ (st : DBState) (nm : String), (st.indexes.lookup nm).isSome →
      ((L.foldl (fun s q => createIndexIfNotExists s q.1 q.2.1 q.2.2) st).indexes.lookup nm).isSome := by
  induction L with
  | nil => intro st nm h; exact h
  | cons q t ih =>
    intro st nm h
    simp only [List.foldl_cons]
    apply ih
    unfold createIndexIfNotExists
    split
    · exact h
    · simpa [lookup_append_isSome nm st.indexes [(q.1, q.2.1, q.2.2)] h] using h

/-- Helper: after the index-creation pass, every listed index exists. -/
theorem indexesFold_mem (L : List (String × String × String)) :
    ∀ (st : DBState) (q : String × String × String), q ∈ L →
      ((L.foldl (fun s r => createIndexIfNotExists s r.1 r.2.1 r.2.2) st).indexes.lookup q.1).isSome := by
  induction L with
  | nil => intro st q h; simp at h
  | cons r t ih =>
    intro st q hq
    simp only [List.foldl_cons]
    rcases List.mem_cons.mp hq with rfl | hq
    · apply indexesFold_keeps t
      unfold createIndexIfNotExists
      split
      · rename_i hs
        exact hs
      · rename_i hs
        have hnone : st.indexes.lookup q.1 = none := by
          cases hx : st.indexes.lookup q.1
          · rfl
          · rw [hx] at hs
            simp at hs
        simp [lookup_append_none q.1 st.indexes [(q.1, q.2.1, q.2.2)] hnone, List.lookup]
    · exact ih _ q hq

/-- Helper: the index-creation pass is the identity when every listed
index already exists. -/
theorem indexesFold_id (L : List (String × String × String)) :
    ∀ st : DBState, (∀ q ∈ L, (st.indexes.lookup q.1).isSome) →
      L.foldl (fun s r => createIndexIfNotExists s r.1 r.2.1 r.2.2) st = st := by
  induction L with
  | nil => intro st _; rfl
  | cons r t ih =>
    intro st h
    simp only [List.foldl_cons]
    have hr : createIndexIfNotExists st r.1 r.2.1 r.2.2 = st := by
      unfold createIndexIfNotExists
      rw [if_pos (h r (List.mem_cons_self r t))]
    rw [hr]
    exact ih st fun q hq => h q (List.mem_cons_of_mem _ hq)

/-- Helper: index creation leaves the tables untouched. -/
theorem indexesFold_tables (L : List (String × String × String)) :
    ∀ st : DBState,
      (L.foldl (fun s q => createIndexIfNotExists s q.1 q.2.1 q.2.2) st).tables = st.tables := by
  induction L with
  | nil => intro st; rfl
  | cons q t ih =>
    intro st
    simp only [List.foldl_cons]
    rw [ih]
    unfold createIndexIfNotExists
    split <;> rfl

/-- C9: `init_database` is idempotent on the schema state — running it
a second time changes neither the tables (names and column
definitions) nor the timestamp indexes, and (being a total function of
the state) raises no error. -/
theorem c9_init_schema_idempotent :
    ∀ st : DBState, initDatabase (initDatabase st) = initDatabase st := by
  intro st
  show initIndexes (initTables (initIndexes (initTables st))) = initIndexes (initTables st)
  have h1 : initTables (initIndexes (initTables st)) = initIndexes (initTables st) := by
    apply tablesFold_id
    intro q hq
    rw [show (initIndexes (initTables st)).tables = (initTables st).tables from
      indexesFold_tables monitorIndexes (initTables st)]
    exact tablesFold_mem monitorSchemas st q hq
  rw [h1]
  apply indexesFold_id
  intro q hq
  exact indexesFold_mem monitorIndexes (initTables st) q hq

/-- C10: `insert_batch` with an empty batch returns without touching
the database; with a non-empty batch the inserted columns are exactly
the keys of the FIRST record, each row's stored value for a column is
that row's value for the key (`none`, i.e. SQL NULL, when the row lacks
the key), and a key absent from the first record is never among the
inserted columns, whatever later records contain. -/
theorem c10_insert_batch_first_record_columns :
    (∀ t : String, insert_batch t [] = none) ∧
    (∀ (t : String) (r0 : Row) (rest : List Row)
        (res : String × List String × List (List (Option SQLVal))),
      insert_batch t (r0 :: rest) = some res →
      res.2.1 = r0.map Prod.fst ∧
      res.2.2 = (r0 :: rest).map (fun row => res.2.1.map fun c => row.lookup c) ∧
      (∀ row : Row, row ∈ r0 :: rest → ∀ c ∈ res.2.1, c ∉ row.map Prod.fst →
        row.lookup c = none) ∧
      (∀ k : String, k ∉ r0.map Prod.fst → k ∉ res.2.1)) := by
  constructor
  · intro t
    rfl
  · intro t r0 rest res hres
    have hres' : res = (t, r0.map Prod.fst,
        (r0 :: rest).map fun row => (r0.map Prod.fst).map fun c => row.lookup c) :=
      (Option.some.inj hres).symm
    subst hres'
    refine ⟨rfl, rfl, ?_, ?_⟩
    · intro row _ c _ hcrow
      exact lookup_none_of_not_mem c row hcrow
    · intro k hk
      exact hk

/-- Witness for C10: an empty batch, and the fixture batch whose second
record misses key `b` (stored as NULL) and adds key `c` (not stored). -/
theorem c10_insert_batch_first_record_columns_witness :
    (insert_batch ("alerts") [] = none) ∧
    (insert_batch ("logcat_entries") [c10Row0, c10Row1] =
      some (("logcat_entries"), ["a", "b"], [[some 1, some 2], [some 3, none]])) ∧
    ((("logcat_entries"), ["a", "b"],
        ([[some 1, some 2], [some 3, none]] : List (List (Option SQLVal)))).2.1 =
      c10Row0.map Prod.fst) ∧
    (c10Row1.lookup ("b") = none) ∧
    (("c" : String) ∉ ((("logcat_entries"), ["a", "b"],
        ([[some 1, some 2], [some 3, none]] : List (List (Option SQLVal)))).2.1)) :=
  ⟨(c10_insert_batch_first_record_columns.1 ("alerts")),
    by decide,
    (c10_insert_batch_first_record_columns.2 ("logcat_entries") c10Row0 [c10Row1]
      (("logcat_entries"), ["a", "b"], [[some 1, some 2], [some 3, none]]) (by decide)).1,
    (c10_insert_batch_first_record_columns.2 ("logcat_entries") c10Row0 [c10Row1]
      (("logcat_entries"), ["a", "b"], [[some 1, some 2], [some 3, none]])
      (by decide)).2.2.1 c10Row1 (by decide) ("b") (by decide) (by decide),
    (c10_insert_batch_first_record_columns.2 ("logcat_entries") c10Row0 [c10Row1]
      (("logcat_entries"), ["a", "b"], [[some 1, some 2], [some 3, none]])
      (by decide)).2.2.2 ("c") (by decide)⟩

end AndroidMonitor
